import Mathlib

/-!
Verification development for the street-network cleaning module
(`urbanFormPy/simplify.py`).  The node and edge GeoDataFrames are embedded
as lists of records; pandas row lookups by label become list searches on
the `nodeID` / `streetID` key fields (the tables keep those as their
indexes throughout the pipeline).  Geometry collaborators (shapely length,
`uf.center_line`) are external per the module boundary, so they are passed
in as an explicit `GeomOps` record; coordinates are exact rationals.

Two encodings deserve note:
- the canonical endpoint-pair `code` column is built in the source as the
  string `str(a) + "-" + str(b)`; the map from the ordered id pair `(a, b)`
  to that string is injective, and the code column is only ever compared
  for equality and counted, so it is embedded as the pair itself;
- Python exceptions are embedded as `Except PyErr`; accessing a column or
  attribute that does not exist is an error value, matching the pandas /
  attribute-lookup behaviour of the source.

The source file calls `double_nodes` (line 279) and tests `detect_islands`
(line 359); no such names exist anywhere in the repository and the only
definitions filling those roles are `duplicate_nodes` and the parameter
`remove_disconnected_islands`, which both the surrounding code and the
docstrings refer to, so the embedding resolves the two references that way.
Likewise `graph_fromGDF` (line 360) is the external graph-construction
collaborator; its connected-component enumeration is embedded concretely.
-/

/- The rational arithmetic of Batteries is `irreducible`, which stops the
`decide` evaluator; concrete evaluations below need it unfolded. -/
attribute [local semireducible] Rat.add Rat.sub Rat.mul Rat.inv

/-- A planar coordinate pair (shapely coordinates, embedded exactly). -/
abbrev Coord := ℚ × ℚ

/-- Values of the `highway` column that the source compares against,
plus `other` standing for any further string and `none` for NaN.  The
source only tests membership in two fixed lists, so this enumeration is
faithful for every comparison it performs. -/
inductive HighwayTag where
  | primary_link
  | elevator
  | footway
  | pedestrian_area
  | living_street
  | path
  | residential
  | other
deriving DecidableEq, Repr

/-- Python-level failures the embedded functions can raise. -/
inductive PyErr where
  /-- pandas `KeyError`, e.g. looking a `None` column name up in a row. -/
  | keyError
  /-- the module's own `columnError` raised at `clean_network` line 341. -/
  | columnMissing
  /-- `AttributeError`: attribute/column absent (the misspelled
  `new_nodes.geomety` at `duplicate_nodes` line 79). -/
  | attrError
  /-- `TypeError`: item assignment on a shapely `CoordinateSequence`
  (`update_line_geometry_coords` line 411 — line 410 takes
  `old_line_geometry.coords` without `list(...)`). -/
  | typeError
  /-- fuel exhaustion of the embedded `while` loop: the source loop has no
  iteration bound, so running out of fuel marks non-termination up to the
  supplied bound. -/
  | fuelExhausted
deriving DecidableEq, Repr

/-- One row of the nodes GeoDataFrame.  `x` and `y` are the coordinate
columns written from the point geometry (`clean_network` lines 276, 353). -/
structure NodeRow where
  nodeID : Int
  geometry : Coord
  x : ℚ
  y : ℚ
deriving DecidableEq, Repr

/-- One row of the edges GeoDataFrame.  `code` and `coords` are the
temporary columns the cleaning loop writes (`clean_network` lines 281,
300-306); `code` holds the canonical id pair (see the header comment),
`coords` the direction-normalised coordinate list.  The `tmp` column of
line 313 is the tuple of `coords` and is represented by `coords` itself.
`density` is the single caller-named densities column. -/
structure EdgeRow where
  streetID : Int
  u : Int
  v : Int
  geometry : List Coord
  pedestrian : Int
  highway : Option HighwayTag
  density : ℚ
  length : ℚ
  code : Option (Int × Int)
  coords : Option (List Coord)
deriving DecidableEq, Repr

deriving instance DecidableEq for Except

/-- The external geometry collaborator: shapely `.length` and
`uf.center_line`, consumed as black boxes by the module under study. -/
structure GeomOps where
  lineLength : List Coord → ℚ
  centerLine : List Coord → List Coord → List Coord

/-- Kernel-reducible absolute value on the rationals. -/
def absQ (q : ℚ) : ℚ := if q < 0 then -q else q

/-- Sum of Manhattan segment lengths: a concrete executable instantiation
of the external length collaborator, used by witnesses. -/
def manLength : List Coord → ℚ
  | [] => 0
  | [_] => 0
  | a :: b :: r => (absQ (b.1 - a.1) + absQ (b.2 - a.2)) + manLength (b :: r)

/-- A concrete instantiation of the external geometry collaborator used by
witness evaluations (the first line stands in for the centerline). -/
def ops0 : GeomOps := { lineLength := manLength, centerLine := fun a _ => a }

/-- Join-degree of node `n` in the edge table: occurrences as `u` plus
occurrences as `v` (the `dd_u`/`dd_v` value-count sums used at lines
104-106, 132-134 and 182-183). -/
def degree (edges : List EdgeRow) (n : Int) : Nat :=
  (edges.countP (fun e => e.u = n)) + (edges.countP (fun e => e.v = n))

/-- The node ids carried by some edge endpoint: the key set
`set(dd_u) | set(dd_v)` of the degree dictionaries.  CPython set iteration
order is unspecified; first-appearance order is used here, and no claim
below depends on the order. -/
def incidentNodeIds (edges : List EdgeRow) : List Int :=
  ((edges.map (fun e => e.u)) ++ (edges.map (fun e => e.v))).dedup

/-- Keep the first occurrence of each key (pandas
`drop_duplicates(keep='first')` / `.loc` on the deduplicated index). -/
def dedupByKeyAux {α β : Type} [DecidableEq β] (key : α → β) (seen : List β) :
    List α → List α
  | [] => []
  | a :: as =>
    if key a ∈ seen then dedupByKeyAux key seen as
    else a :: dedupByKeyAux key (key a :: seen) as

/-- `is_nodes_simplified` (lines 118-139): true when no incident node has
join-degree exactly 2. -/
def is_nodes_simplified (edges : List EdgeRow) : Bool :=
  ((incidentNodeIds edges).filter (fun n => degree edges n == 2)).isEmpty

/-- The canonical endpoint-pair key of lines 156-157 / 300-301: the id
pair ordered lower-first (`"u-v"` when `v >= u`, else `"v-u"`). -/
def mkCode (e : EdgeRow) : Int × Int :=
  if e.v ≥ e.u then (e.u, e.v) else (e.v, e.u)

/-- The column write performed by `is_edges_simplified` lines 155-157 and
by the loop body lines 300-301: every row's `code` becomes its canonical
key. -/
def writeCodes (edges : List EdgeRow) : List EdgeRow :=
  edges.map (fun e => { e with code := some (mkCode e) })

/-- `is_edges_simplified` (lines 141-161).  The function writes the `code`
column into the caller's table (it takes no copy) and returns whether no
canonical key occurs more than once; the pair returned here is
(result, caller-visible table after the call). -/
def is_edges_simplified (edges : List EdgeRow) : Bool × List EdgeRow :=
  let edges2 := writeCodes edges
  let codes := edges2.map (fun e => e.code)
  (codes.all (fun c => codes.count c ≤ 1), edges2)

/-- Caller-visible node-table index after `duplicate_nodes` line 64: the
index is reassigned to the `nodeID` column when the two disagree, before
the copies of line 65 are taken. -/
def duplicate_nodes_callerIdx (idx : List Int) (nodes : List NodeRow) : List Int :=
  if idx = nodes.map (fun n => n.nodeID) then idx else nodes.map (fun n => n.nodeID)

/-- `duplicate_nodes` (lines 51-86).  Duplicate node geometries are
detected by first-occurrence wkb deduplication (lines 68-69).  When
duplicates exist, the repair loop's first statement over a duplicate
evaluates `new_nodes.geomety` (line 79) — a misspelling of `geometry`,
a column that does not exist — so the call raises `AttributeError`.
When no duplicates exist the copied inputs are returned unchanged. -/
def duplicate_nodes (nodes : List NodeRow) (edges : List EdgeRow) :
    Except PyErr (List NodeRow × List EdgeRow) :=
  let kept := dedupByKeyAux (fun n => n.geometry) [] nodes
  let toEdit := (nodes.map (fun n => n.nodeID)).filter
    (fun i => i ∉ kept.map (fun n => n.nodeID))
  if toEdit.isEmpty then .ok (nodes, edges) else .error .attrError

/-- `fix_dead_ends` (lines 89-116): drop every node of join-degree 1
together with its incident edge. -/
def fix_dead_ends (nodes : List NodeRow) (edges : List EdgeRow) :
    List NodeRow × List EdgeRow :=
  let toDelete := (incidentNodeIds edges).filter (fun n => degree edges n == 1)
  if toDelete.isEmpty then (nodes, edges)
  else
    (nodes.filter (fun n => n.nodeID ∉ toDelete),
     edges.filter (fun e => e.u ∉ toDelete ∧ e.v ∉ toDelete))

/-- Row lookup by edge label (`edges_gdf.loc[streetID]`; the edge table is
indexed by `streetID`). -/
def findEdge (edges : List EdgeRow) (sid : Int) : Option EdgeRow :=
  edges.find? (fun e => e.streetID = sid)

/-- In-place cell update `edges_gdf.at[sid, ...]`. -/
def updateEdge (edges : List EdgeRow) (sid : Int) (f : EdgeRow → EdgeRow) :
    List EdgeRow :=
  edges.map (fun e => if e.streetID = sid then f e else e)

/-- `edges_gdf.drop(labels, axis=0)`. -/
def dropEdges (edges : List EdgeRow) (sids : List Int) : List EdgeRow :=
  edges.filter (fun e => e.streetID ∉ sids)

/-- `nodes_gdf.drop(nodeID, axis=0)`. -/
def dropNode (nodes : List NodeRow) (nid : Int) : List NodeRow :=
  nodes.filter (fun n => n.nodeID ≠ nid)

/-- A Python `for` loop threading a state, where the body may raise: the
first raised exception aborts the loop. -/
def foldlExcept {σ α : Type} (step : σ → α → Except PyErr σ) :
    σ → List α → Except PyErr σ
  | s, [] => .ok s
  | s, a :: l => (step s a).bind (fun s2 => foldlExcept step s2 l)

/-- A row-wise `apply` whose body may raise: the first raised exception
aborts the traversal. -/
def mapExcept {α β : Type} (f : α → Except PyErr β) :
    List α → Except PyErr (List β)
  | [] => .ok []
  | a :: l => (f a).bind (fun b => (mapExcept f l).map (fun bs => b :: bs))

/-- The four shared-endpoint cases of `simplify_graph` lines 203-219,
checked in source order: the result is the surviving edge's new `(u, v)`
pair and the two coordinate lists to concatenate (only the first case
reverses the first edge's list; the final `else` is the `v == v` case). -/
def contractCase (e1 e2 : EdgeRow) : (Int × Int) × (List Coord × List Coord) :=
  if e1.u = e2.u then ((e1.v, e2.v), (e1.geometry.reverse, e2.geometry))
  else if e1.u = e2.v then ((e2.u, e1.v), (e2.geometry, e1.geometry))
  else if e1.v = e2.u then ((e1.u, e2.v), (e1.geometry, e2.geometry))
  else ((e1.u, e2.u), (e1.geometry, e2.geometry))

/-- The per-pseudo-node contraction step: the body of the `for nodeID in
to_edit_list` loop of `simplify_graph` (lines 190-237).  `tmp` is the list
of incident edges in table order (`iloc[0]`, `iloc[1]` are its first two
rows).  The four shared-endpoint cases of lines 203-219 pick the surviving
edge's new `u`/`v` and the two coordinate lists `A`, `B`; only the first
case reverses a list.  The density update of lines 221-222 runs before the
self-loop check of lines 225-228; with `update_densities` set and no
column name the row lookup of the `None` column raises `KeyError`. -/
def contractNode (ud : Bool) (dc : Option Unit)
    (st : List NodeRow × List EdgeRow) (nid : Int) :
    Except PyErr (List NodeRow × List EdgeRow) :=
  let nodes := st.1
  let edges := st.2
  let tmp := edges.filter (fun e => e.u = nid ∨ e.v = nid)
  match tmp with
  | [] => .ok (dropNode nodes nid, edges)
  | [_] => .ok (nodes, edges)
  | e1 :: e2 :: _ =>
    let newU := (contractCase e1 e2).1.1
    let newV := (contractCase e1 e2).1.2
    let A := (contractCase e1 e2).2.1
    let B := (contractCase e1 e2).2.2
    let edges1 := updateEdge edges e1.streetID (fun e => { e with u := newU, v := newV })
    let densUpd : Except PyErr (List EdgeRow) :=
      if ud then
        match dc with
        | none => .error .keyError
        | some _ => .ok (updateEdge edges1 e1.streetID
            (fun e => { e with density := max e1.density e2.density }))
      else .ok edges1
    densUpd.bind (fun edges2 =>
      if newU = newV then
        .ok (dropNode nodes nid, dropEdges edges2 [e1.streetID, e2.streetID])
      else
        let edges3 := updateEdge edges2 e1.streetID
          (fun e => { e with geometry := A ++ B })
        let edges4 := if e2.pedestrian = 1 then
            updateEdge edges3 e1.streetID (fun e => { e with pedestrian := 1 })
          else edges3
        .ok (dropNode nodes nid, dropEdges edges4 [e2.streetID]))

/-- `simplify_graph` (lines 163-239): contract every node whose
join-degree is exactly 2 at entry, in `to_edit_list` order. -/
def simplify_graph (ud : Bool) (dc : Option Unit) (nodes : List NodeRow)
    (edges : List EdgeRow) : Except PyErr (List NodeRow × List EdgeRow) :=
  let toEdit := (incidentNodeIds edges).filter (fun n => degree edges n == 2)
  if toEdit.isEmpty then .ok (nodes, edges)
  else foldlExcept (contractNode ud dc) (nodes, edges) toEdit

/-- The `highway` handling of `clean_network` lines 283-288: zero the
pedestrian flag, drop `primary_link`/`elevator` rows, then set the flag to
1 on the four pedestrian road types. -/
def highwayStep (edges : List EdgeRow) : List EdgeRow :=
  let edges1 := edges.map (fun e => { e with pedestrian := 0 })
  let edges2 := edges1.filter (fun e =>
    e.highway ∉ [some HighwayTag.primary_link, some HighwayTag.elevator])
  edges2.map (fun e =>
    if e.highway ∈ [some HighwayTag.footway, some HighwayTag.pedestrian_area,
        some HighwayTag.living_street, some HighwayTag.path] then
      { e with pedestrian := 1 }
    else e)

/-- The coordinate normalisation of lines 304-306: `coords` becomes the
geometry's coordinate list, reversed on rows whose raw `(u, v)` pair
differs from the canonical key (which lines 300-301 just wrote). -/
def setCoords (edges : List EdgeRow) : List EdgeRow :=
  edges.map (fun e =>
    if some (e.u, e.v) ≠ e.code then { e with coords := some e.geometry.reverse }
    else { e with coords := some e.geometry })

/-- Length recomputation of line 295 via the external collaborator. -/
def recomputeLengths (ops : GeomOps) (edges : List EdgeRow) : List EdgeRow :=
  edges.map (fun e => { e with length := ops.lineLength e.geometry })

/-- `tmp.sort_values(['length'], ascending=True)` of line 324.  pandas
uses an unstable quicksort, so the order among equal lengths is
unspecified; a stable insertion sort is one implementation of that
unspecified choice. -/
def sortByLength (edges : List EdgeRow) : List EdgeRow :=
  edges.insertionSort (fun a b => a.length ≤ b.length)

/-- One iteration of the inner connector loop of lines 328-343.  The
reference row `refID` keeps the group's snapshot geometry `refGeom` as the
comparison line throughout (lines 325, 333, 336).  A connector more than
30% longer than the reference only skips the centerline replacement
(`pass`, line 333); the pedestrian OR, the density sum (raising
`columnError` when densities are requested without a column name) and the
drop of the connector run for every connector.  The connector row is
never modified before being dropped, so its `pedestrian`/`density` cells
are read off the snapshot `c`. -/
def processConnector (ops : GeomOps) (ud : Bool) (dc : Option Unit)
    (refGeom : List Coord) (refID : Int) (edges : List EdgeRow) (c : EdgeRow) :
    Except PyErr (List EdgeRow) :=
  if c.streetID = refID then .ok edges
  else
    let edges1 :=
      if ops.lineLength c.geometry > ops.lineLength refGeom * (13 / 10 : ℚ) then edges
      else updateEdge edges refID
        (fun e => { e with geometry := ops.centerLine refGeom c.geometry })
    let edges2 :=
      if c.pedestrian = 1 then
        updateEdge edges1 refID (fun e => { e with pedestrian := 1 })
      else edges1
    let densUpd : Except PyErr (List EdgeRow) :=
      if ud then
        match dc with
        | none => .error .columnMissing
        | some _ => .ok (updateEdge edges2 refID
            (fun e => { e with density := e.density + c.density }))
      else .ok edges2
    densUpd.map (fun es => es.filter (fun e => e.streetID ≠ c.streetID))

/-- Processing of one duplicated canonical key (lines 321-343): sort the
group by length ascending, take the shortest row as the reference, then
run the connector loop over the whole sorted group (the reference skips
itself via the `continue` of line 329). -/
def processGroup (ops : GeomOps) (ud : Bool) (dc : Option Unit)
    (edges : List EdgeRow) (key : Int × Int) : Except PyErr (List EdgeRow) :=
  let tmp := sortByLength (edges.filter (fun e => e.code = some key))
  match tmp with
  | [] => .ok edges
  | r :: _ => foldlExcept (processConnector ops ud dc r.geometry r.streetID) edges tmp

/-- The duplicate-u-v-pair resolution step of lines 317-343: every
canonical key held by more than one row is processed.  Key groups are
disjoint, so the (unspecified) `value_counts` key order cannot affect the
result; first-appearance order is used. -/
def sameUVStep (ops : GeomOps) (ud : Bool) (dc : Option Unit)
    (edges : List EdgeRow) : Except PyErr (List EdgeRow) :=
  let codes := (edges.filterMap (fun e => e.code)).dedup
  let dd := codes.filter (fun k => (edges.map (fun e => e.code)).count (some k) > 1)
  foldlExcept (processGroup ops ud dc) edges dd

/-- Lines 346-347: keep only nodes referenced by a surviving edge. -/
def restrictNodes (nodes : List NodeRow) (edges : List EdgeRow) : List NodeRow :=
  nodes.filter (fun n =>
    n.nodeID ∈ edges.map (fun e => e.u) ∨ n.nodeID ∈ edges.map (fun e => e.v))

/-- One pass of the cleaning loop body (lines 294-351): recompute lengths,
write canonical keys, normalise coordinate order, drop identical
geometries (wkb, keep first), drop reverse-identical geometries
(normalised `coords`, keep first), optionally resolve duplicated endpoint
pairs, restrict the node table, optionally prune dead ends, then contract
pseudo-nodes. -/
def passBody (ops : GeomOps) (dead_ends same_uv ud : Bool) (dc : Option Unit)
    (st : List NodeRow × List EdgeRow) :
    Except PyErr (List NodeRow × List EdgeRow) :=
  let edgesA := recomputeLengths ops st.2
  let edgesB := writeCodes edgesA
  let edgesC := setCoords edgesB
  let edgesD := dedupByKeyAux (fun e => e.geometry) [] edgesC
  let edgesE := dedupByKeyAux (fun e => e.coords) [] edgesD
  let resolved := if same_uv then sameUVStep ops ud dc edgesE else .ok edgesE
  resolved.bind (fun edgesF =>
    let nodesA := restrictNodes st.1 edgesF
    let st2 := if dead_ends then fix_dead_ends nodesA edgesF else (nodesA, edgesF)
    simplify_graph ud dc st2.1 st2.2)

/-- The convergence loop of line 292, fuel-bounded.  Each condition check
evaluates `is_edges_simplified`, whose `code`-column write lands in the
loop's working table (both `|` operands are evaluated).  The source loop
has no iteration cap; exhausting the fuel with the condition still true is
reported as `fuelExhausted`. -/
def cleanLoop (ops : GeomOps) (dead_ends same_uv ud : Bool) (dc : Option Unit) :
    Nat → List NodeRow × List EdgeRow →
    Except PyErr (List NodeRow × List EdgeRow)
  | 0, st =>
    let p := is_edges_simplified st.2
    if (!p.1) || (!(is_nodes_simplified p.2)) then .error .fuelExhausted
    else .ok (st.1, p.2)
  | fuel + 1, st =>
    let p := is_edges_simplified st.2
    if (!p.1) || (!(is_nodes_simplified p.2)) then
      (passBody ops dead_ends same_uv ud dc (st.1, p.2)).bind
        (cleanLoop ops dead_ends same_uv ud dc fuel)
    else .ok (st.1, p.2)

/-- Lines 276 and 353: write the `x`/`y` columns from the point
geometries. -/
def setXY (nodes : List NodeRow) : List NodeRow :=
  nodes.map (fun n => { n with x := n.geometry.1, y := n.geometry.2 })

/-- Line 354: drop the temporary `code`/`coords`/`tmp` columns. -/
def dropTempCols (edges : List EdgeRow) : List EdgeRow :=
  edges.map (fun e => { e with code := none, coords := none })

/-- Line 280: `edges_gdf.sort_index()` (the edge index is `streetID`). -/
def sortByStreetID (edges : List EdgeRow) : List EdgeRow :=
  edges.insertionSort (fun a b => a.streetID ≤ b.streetID)

/-- `update_line_geometry_coords` (lines 394-415): line 410 reads
`line_coords = old_line_geometry.coords` without wrapping it in
`list(...)` (unlike the module's idiom elsewhere, e.g. line 206), so
`line_coords` is a shapely `CoordinateSequence`, which supports no item
assignment.  The right-hand side of the line-411 assignment is evaluated
first, so a `u` label missing from the node table raises `KeyError`;
otherwise the assignment `line_coords[0] = ...` itself raises
`TypeError`, unconditionally — the function can never return a
geometry. -/
def update_line_geometry_coords (u v : Int) (nodes : List NodeRow)
    (g : List Coord) : Except PyErr (List Coord) :=
  match nodes.find? (fun n => n.nodeID = u), v, g with
  | some _, _, _ => .error .typeError
  | none, _, _ => .error .keyError

/-- `correct_edges` (lines 376-392): the row-wise `apply` of line 390
calls `update_line_geometry_coords` on every edge; since that helper
always raises, the call succeeds only on an empty edge table (the
`apply` body never runs) and otherwise propagates the first row's
exception. -/
def correct_edges (nodes : List NodeRow) (edges : List EdgeRow) :
    Except PyErr (List EdgeRow) :=
  mapExcept (fun e =>
    (update_line_geometry_coords e.u e.v nodes e.geometry).map
      (fun g => { e with geometry := g })) edges

/-- Undirected neighbours of `n` in the edge table (for the external
graph-construction collaborator's component view, lines 359-368). -/
def neighborIds (edges : List EdgeRow) (n : Int) : List Int :=
  (edges.filterMap (fun e => if e.u = n then some e.v else none)) ++
  (edges.filterMap (fun e => if e.v = n then some e.u else none))

/-- Fuel-bounded breadth-first reachability over the edge table. -/
def reachAux (edges : List EdgeRow) : Nat → List Int → List Int → List Int
  | 0, visited, _ => visited
  | _ + 1, visited, [] => visited
  | k + 1, visited, x :: front =>
    if x ∈ visited then reachAux edges k visited front
    else reachAux edges k (x :: visited) (neighborIds edges x ++ front)

/-- All node ids connected to `start`. -/
def reach (edges : List EdgeRow) (start : Int) : List Int :=
  reachAux edges ((edges.length * 2 + 1) * (edges.length * 2 + 2)) [] [start]

/-- Connected components over the given node ids, in first-appearance
order (`nx.connected_components` enumerates in unspecified order;
`max(..., key=len)` then keeps the first component of maximal size). -/
def componentsOf (edges : List EdgeRow) (nodeIds : List Int) : List (List Int) :=
  nodeIds.foldl (fun acc n =>
    if acc.any (fun comp => n ∈ comp) then acc else acc ++ [reach edges n]) []

/-- First component of maximal node count. -/
def pickLargest : List (List Int) → Option (List Int)
  | [] => none
  | c :: cs =>
    match pickLargest cs with
    | none => some c
    | some best => if best.length > c.length then some best else some c

/-- The disconnected-island removal of lines 358-368: when more than one
component exists, keep only the largest component's nodes and the edges
between them. -/
def islandFilter (nodes : List NodeRow) (edges : List EdgeRow) :
    List NodeRow × List EdgeRow :=
  let comps := componentsOf edges (nodes.map (fun n => n.nodeID))
  if comps.length ≤ 1 then (nodes, edges)
  else
    match pickLargest comps with
    | none => (nodes, edges)
    | some largest =>
      let nodes2 := nodes.filter (fun n => n.nodeID ∈ largest)
      let keep := nodes2.map (fun n => n.nodeID)
      (nodes2, edges.filter (fun e => e.u ∈ keep ∧ e.v ∈ keep))

/-- `clean_network` (lines 242-374): copy and re-key the tables, write the
node coordinate columns, drop self-loop rows, resolve duplicate node
geometries, sort the edge index, reset the temporary columns, apply the
highway handling when that column exists, run the convergence loop, then
re-derive coordinates, drop the temporary columns, reconcile edge end
coordinates and optionally drop disconnected islands.  `hasHighway` is
the line-283 column-presence test; `fuel` bounds the unbounded source
loop. -/
def clean_network (ops : GeomOps)
    (hasHighway dead_ends remove_disconnected_islands same_uv ud : Bool)
    (dc : Option Unit) (fuel : Nat) (nodes : List NodeRow)
    (edges : List EdgeRow) : Except PyErr (List NodeRow × List EdgeRow) :=
  let nodes0 := setXY nodes
  let edges0 := edges.filter (fun e => e.u ≠ e.v)
  (duplicate_nodes nodes0 edges0).bind (fun p =>
    let edges2 := sortByStreetID p.2
    let edges3 := edges2.map (fun e => { e with code := none, coords := none })
    let edges4 := if hasHighway then highwayStep edges3 else edges3
    (cleanLoop ops dead_ends same_uv ud dc fuel (p.1, edges4)).bind (fun st =>
      let nodes3 := setXY st.1
      let edges6 := dropTempCols st.2
      (correct_edges nodes3 edges6).map (fun edges7 =>
        if remove_disconnected_islands then islandFilter nodes3 edges7
        else (nodes3, edges7))))

/-! ### Concrete instances used by the claim theorems and witnesses -/

/-- Three nodes with node 2 a pseudo-node: both incident edges carry node
2 as their `v` endpoint (the fourth shared-endpoint case).  The two edge
geometries are endpoint-consistent with their nodes. -/
def c1Nodes : List NodeRow :=
  [⟨0, ((0 : ℚ), (0 : ℚ)), 0, 0⟩, ⟨1, ((10 : ℚ), (0 : ℚ)), 10, 0⟩,
   ⟨2, ((5 : ℚ), (5 : ℚ)), 5, 5⟩]

def c1Edges : List EdgeRow :=
  [⟨0, 0, 2, [((0 : ℚ), (0 : ℚ)), ((5 : ℚ), (5 : ℚ))], 0, none, 0, 0, none, none⟩,
   ⟨1, 1, 2, [((10 : ℚ), (0 : ℚ)), ((5 : ℚ), (5 : ℚ))], 0, none, 0, 0, none, none⟩]

/-- The reference edge of a parallel pair (canonical key `(0, 1)`),
Manhattan length 1, no pedestrian flag, density 3. -/
def c2Ref : EdgeRow :=
  ⟨0, 0, 1, [((0 : ℚ), (0 : ℚ)), ((1 : ℚ), (0 : ℚ))], 0, none, 3, 1, some (0, 1), none⟩

/-- A parallel edge over 30% longer than `c2Ref` (Manhattan length 2),
pedestrian-flagged, density 7. -/
def c2Conn : EdgeRow :=
  ⟨1, 0, 1, [((0 : ℚ), (0 : ℚ)), ((2 : ℚ), (0 : ℚ))], 1, none, 7, 2, some (0, 1), none⟩

/-- A two-edge chain through pseudo-node 2, densities 3 and 7. -/
def c3Nodes : List NodeRow :=
  [⟨0, ((0 : ℚ), (0 : ℚ)), 0, 0⟩, ⟨1, ((2 : ℚ), (0 : ℚ)), 0, 0⟩,
   ⟨2, ((1 : ℚ), (0 : ℚ)), 0, 0⟩]

def c3Edges : List EdgeRow :=
  [⟨0, 0, 2, [((0 : ℚ), (0 : ℚ)), ((1 : ℚ), (0 : ℚ))], 0, none, 3, 1, none, none⟩,
   ⟨1, 2, 1, [((1 : ℚ), (0 : ℚ)), ((2 : ℚ), (0 : ℚ))], 0, none, 7, 1, none, none⟩]

/-- A parallel pair within the 30% bound (Manhattan lengths 10 and 12),
densities 3 and 7. -/
def c3GroupEdges : List EdgeRow :=
  [⟨0, 0, 1, [((0 : ℚ), (0 : ℚ)), ((10 : ℚ), (0 : ℚ))], 0, none, 3, 10, some (0, 1), none⟩,
   ⟨1, 0, 1, [((0 : ℚ), (0 : ℚ)), ((5 : ℚ), (1 : ℚ)), ((10 : ℚ), (0 : ℚ))], 0, none, 7, 12, some (0, 1), none⟩]

def c4Nodes : List NodeRow :=
  [⟨0, ((0 : ℚ), (0 : ℚ)), 1, 1⟩, ⟨1, ((9 : ℚ), (9 : ℚ)), 8, 8⟩]

def c4Edges : List EdgeRow :=
  [⟨0, 0, 1, [((0 : ℚ), (0 : ℚ)), ((5 : ℚ), (5 : ℚ)), ((9 : ℚ), (9 : ℚ))], 0, none, 0, 0, none, none⟩]

/-- A two-node single-edge network that is already simplified: the
cleaning loop body never runs on it. -/
def c5Nodes : List NodeRow :=
  [⟨0, ((0 : ℚ), (0 : ℚ)), 0, 0⟩, ⟨1, ((3 : ℚ), (0 : ℚ)), 0, 0⟩]

def c5Edges : List EdgeRow :=
  [⟨0, 0, 1, [((0 : ℚ), (0 : ℚ)), ((3 : ℚ), (0 : ℚ))], 0, none, 5, 0, none, none⟩]

/-- Six nodes: nodes 0 and 1 are joined by two parallel edges with
distinct geometries and carry two further spokes each, so both have
join-degree 4 and every other node has degree 1. -/
def c6Nodes : List NodeRow :=
  [⟨0, ((0 : ℚ), (0 : ℚ)), 0, 0⟩, ⟨1, ((10 : ℚ), (0 : ℚ)), 0, 0⟩,
   ⟨2, ((0 : ℚ), (5 : ℚ)), 0, 0⟩, ⟨3, ((0 : ℚ), (-5 : ℚ)), 0, 0⟩,
   ⟨4, ((15 : ℚ), (0 : ℚ)), 0, 0⟩, ⟨5, ((10 : ℚ), (5 : ℚ)), 0, 0⟩]

def c6Edges : List EdgeRow :=
  [⟨0, 0, 1, [((0 : ℚ), (0 : ℚ)), ((1 : ℚ), (1 : ℚ)), ((10 : ℚ), (0 : ℚ))], 0, none, 0, 0, none, none⟩,
   ⟨1, 0, 1, [((0 : ℚ), (0 : ℚ)), ((2 : ℚ), (2 : ℚ)), ((10 : ℚ), (0 : ℚ))], 0, none, 0, 0, none, none⟩,
   ⟨2, 0, 2, [((0 : ℚ), (0 : ℚ)), ((0 : ℚ), (5 : ℚ))], 0, none, 0, 0, none, none⟩,
   ⟨3, 0, 3, [((0 : ℚ), (0 : ℚ)), ((0 : ℚ), (-5 : ℚ))], 0, none, 0, 0, none, none⟩,
   ⟨4, 1, 4, [((10 : ℚ), (0 : ℚ)), ((15 : ℚ), (0 : ℚ))], 0, none, 0, 0, none, none⟩,
   ⟨5, 1, 5, [((10 : ℚ), (0 : ℚ)), ((10 : ℚ), (5 : ℚ))], 0, none, 0, 0, none, none⟩]

/-- The fixed point the loop reaches on `c6Nodes`/`c6Edges` after one
pass: lengths, canonical keys and normalised coordinates are filled in
and nothing else ever changes, while two edges still share key `(0, 1)`. -/
def c6Fix : List NodeRow × List EdgeRow :=
  ([⟨0, ((0 : ℚ), (0 : ℚ)), 0, 0⟩, ⟨1, ((10 : ℚ), (0 : ℚ)), 10, 0⟩,
    ⟨2, ((0 : ℚ), (5 : ℚ)), 0, 5⟩, ⟨3, ((0 : ℚ), (-5 : ℚ)), 0, -5⟩,
    ⟨4, ((15 : ℚ), (0 : ℚ)), 15, 0⟩, ⟨5, ((10 : ℚ), (5 : ℚ)), 10, 5⟩],
   [⟨0, 0, 1, [((0 : ℚ), (0 : ℚ)), ((1 : ℚ), (1 : ℚ)), ((10 : ℚ), (0 : ℚ))], 0, none, 0, 12, some (0, 1),
      some [((0 : ℚ), (0 : ℚ)), ((1 : ℚ), (1 : ℚ)), ((10 : ℚ), (0 : ℚ))]⟩,
    ⟨1, 0, 1, [((0 : ℚ), (0 : ℚ)), ((2 : ℚ), (2 : ℚ)), ((10 : ℚ), (0 : ℚ))], 0, none, 0, 14, some (0, 1),
      some [((0 : ℚ), (0 : ℚ)), ((2 : ℚ), (2 : ℚ)), ((10 : ℚ), (0 : ℚ))]⟩,
    ⟨2, 0, 2, [((0 : ℚ), (0 : ℚ)), ((0 : ℚ), (5 : ℚ))], 0, none, 0, 5, some (0, 2),
      some [((0 : ℚ), (0 : ℚ)), ((0 : ℚ), (5 : ℚ))]⟩,
    ⟨3, 0, 3, [((0 : ℚ), (0 : ℚ)), ((0 : ℚ), (-5 : ℚ))], 0, none, 0, 5, some (0, 3),
      some [((0 : ℚ), (0 : ℚ)), ((0 : ℚ), (-5 : ℚ))]⟩,
    ⟨4, 1, 4, [((10 : ℚ), (0 : ℚ)), ((15 : ℚ), (0 : ℚ))], 0, none, 0, 5, some (1, 4),
      some [((10 : ℚ), (0 : ℚ)), ((15 : ℚ), (0 : ℚ))]⟩,
    ⟨5, 1, 5, [((10 : ℚ), (0 : ℚ)), ((10 : ℚ), (5 : ℚ))], 0, none, 0, 5, some (1, 5),
      some [((10 : ℚ), (0 : ℚ)), ((10 : ℚ), (5 : ℚ))]⟩])

/-- The state handed to the cleaning loop by `clean_network`'s entry steps
on `c6Nodes`/`c6Edges` (coordinates written, no self-loops to drop, no
duplicate node geometries, index sorted, temporary columns reset). -/
def c6Entry : List NodeRow × List EdgeRow :=
  (setXY c6Nodes,
   (sortByStreetID (c6Edges.filter (fun e => e.u ≠ e.v))).map
     (fun e => { e with code := none, coords := none }))

/-- A two-node network whose second input edge is a self-loop `0 → 0`. -/
def c7Nodes : List NodeRow :=
  [⟨0, ((0 : ℚ), (0 : ℚ)), 0, 0⟩, ⟨1, ((1 : ℚ), (2 : ℚ)), 0, 0⟩]

def c7Edges : List EdgeRow :=
  [⟨0, 0, 1, [((0 : ℚ), (0 : ℚ)), ((1 : ℚ), (2 : ℚ))], 0, none, 0, 3, none, none⟩,
   ⟨1, 0, 0, [((0 : ℚ), (0 : ℚ)), ((0 : ℚ), (0 : ℚ))], 0, none, 0, 0, none, none⟩]

/-- Two nodes sharing one geometry (a duplicate pair). -/
def c8DupNodes : List NodeRow :=
  [⟨0, ((0 : ℚ), (0 : ℚ)), 0, 0⟩, ⟨1, ((0 : ℚ), (0 : ℚ)), 0, 0⟩]

/-- Two nodes with distinct geometries. -/
def c8DistinctNodes : List NodeRow :=
  [⟨0, ((0 : ℚ), (0 : ℚ)), 0, 0⟩, ⟨1, ((1 : ℚ), (0 : ℚ)), 0, 0⟩]

def c8Edges : List EdgeRow :=
  [⟨0, 0, 1, [((0 : ℚ), (0 : ℚ)), ((1 : ℚ), (0 : ℚ))], 0, none, 0, 0, none, none⟩]

/-- An edge table whose `code` column is unset. -/
def c9Edges : List EdgeRow :=
  [⟨0, 0, 1, [((0 : ℚ), (0 : ℚ)), ((1 : ℚ), (1 : ℚ))], 0, none, 0, 0, none, none⟩]

/-- Two parallel edges between nodes 0 and 1, one `residential` and one
`primary_link`. -/
def c10Nodes : List NodeRow :=
  [⟨0, ((0 : ℚ), (0 : ℚ)), 0, 0⟩, ⟨1, ((4 : ℚ), (0 : ℚ)), 0, 0⟩]

def c10Edges : List EdgeRow :=
  [⟨0, 0, 1, [((0 : ℚ), (0 : ℚ)), ((4 : ℚ), (0 : ℚ))], 0, some HighwayTag.residential, 0, 4, none, none⟩,
   ⟨1, 0, 1, [((0 : ℚ), (0 : ℚ)), ((2 : ℚ), (1 : ℚ)), ((4 : ℚ), (0 : ℚ))], 0, some HighwayTag.primary_link, 0, 6, none, none⟩]

instance : IsTotal EdgeRow (fun a b => a.length ≤ b.length) :=
  ⟨fun a b => le_total a.length b.length⟩

instance : IsTrans EdgeRow (fun a b => a.length ≤ b.length) :=
  ⟨fun _ _ _ h1 h2 => le_trans h1 h2⟩

/-! ### Generic lemmas about the table operations -/

/-- Per-row invariant family: no self-loop, plus an arbitrary predicate on
the `highway` column (which no loop operation ever rewrites). -/
def edgeInv (Q : Option HighwayTag → Prop) (edges : List EdgeRow) : Prop :=
  ∀ e ∈ edges, e.u ≠ e.v ∧ Q e.highway

theorem edgeInv_of_sub {Q : Option HighwayTag → Prop} {l l2 : List EdgeRow}
    (hsub : ∀ x ∈ l2, x ∈ l) (h : edgeInv Q l) : edgeInv Q l2 :=
  fun e he => h e (hsub e he)

theorem mem_dedupByKeyAux {α β : Type} [DecidableEq β] (key : α → β) :
    ∀ (l : List α) (seen : List β) (x : α), x ∈ dedupByKeyAux key seen l → x ∈ l := by
  intro l
  induction l with
  | nil => intro seen x hx; simp [dedupByKeyAux] at hx
  | cons a as ih =>
    intro seen x hx
    by_cases hk : key a ∈ seen
    · simp only [dedupByKeyAux, if_pos hk] at hx
      exact List.mem_cons_of_mem a (ih seen x hx)
    · simp only [dedupByKeyAux, if_neg hk, List.mem_cons] at hx
      rcases hx with hx | hx
      · exact hx ▸ List.mem_cons_self a as
      · exact List.mem_cons_of_mem a (ih _ x hx)

theorem mem_updateEdge {l : List EdgeRow} {sid : Int} {f : EdgeRow → EdgeRow}
    {x : EdgeRow} (hx : x ∈ updateEdge l sid f) :
    ∃ y ∈ l, x = if y.streetID = sid then f y else y := by
  simp only [updateEdge, List.mem_map] at hx
  obtain ⟨y, hy, hxy⟩ := hx
  exact ⟨y, hy, hxy.symm⟩

/-- Transport an invariant across a single in-place update: unchanged rows
keep `R`-derived `S`, updated rows get `S` from `hupd`. -/
theorem updateEdge_mono {R S : EdgeRow → Prop} {l : List EdgeRow} {sid : Int}
    {f : EdgeRow → EdgeRow} (hkeep : ∀ e ∈ l, R e → S e)
    (hupd : ∀ e ∈ l, R e → e.streetID = sid → S (f e))
    (h : ∀ x ∈ l, R x) : ∀ x ∈ updateEdge l sid f, S x := by
  intro x hx
  obtain ⟨y, hy, hxy⟩ := mem_updateEdge hx
  by_cases hs : y.streetID = sid
  · rw [hxy, if_pos hs]; exact hupd y hy (h y hy) hs
  · rw [hxy, if_neg hs]; exact hkeep y hy (h y hy)

theorem updateEdge_pres {R : EdgeRow → Prop} {l : List EdgeRow} {sid : Int}
    {f : EdgeRow → EdgeRow} (hf : ∀ e ∈ l, R e → R (f e))
    (h : ∀ x ∈ l, R x) : ∀ x ∈ updateEdge l sid f, R x :=
  updateEdge_mono (fun _ _ hr => hr) (fun e he hr _ => hf e he hr) h

theorem foldlExcept_inv {σ α : Type} {P : σ → Prop}
    {step : σ → α → Except PyErr σ}
    (hstep : ∀ s a s2, P s → step s a = .ok s2 → P s2) :
    ∀ (l : List α) (s out : σ), P s → foldlExcept step s l = .ok out → P out := by
  intro l
  induction l with
  | nil =>
    intro s out h hfold
    simp only [foldlExcept] at hfold
    cases hfold
    exact h
  | cons a l ih =>
    intro s out h hfold
    simp only [foldlExcept] at hfold
    cases hsa : step s a with
    | error er => rw [hsa] at hfold; cases hfold
    | ok s2 =>
      rw [hsa] at hfold
      exact ih s2 out (hstep s a s2 h hsa) hfold

theorem mapExcept_inv {α β : Type} {P : α → Prop} {S : β → Prop}
    {f : α → Except PyErr β}
    (hf : ∀ a b, P a → f a = .ok b → S b) :
    ∀ (l : List α) (out : List β), (∀ a ∈ l, P a) →
      mapExcept f l = .ok out → ∀ b ∈ out, S b := by
  intro l
  induction l with
  | nil =>
    intro out _ hmap b hb
    simp only [mapExcept] at hmap
    cases hmap
    cases hb
  | cons a l ih =>
    intro out h hmap b hb
    simp only [mapExcept] at hmap
    cases hfa : f a with
    | error er => rw [hfa] at hmap; cases hmap
    | ok b0 =>
      rw [hfa] at hmap
      cases hrest : mapExcept f l with
      | error er => rw [hrest] at hmap; cases hmap
      | ok bs =>
        rw [hrest] at hmap
        simp only [Except.bind, Except.map] at hmap
        cases hmap
        rcases List.mem_cons.mp hb with hb | hb
        · exact hb ▸ hf a b0 (h a (List.mem_cons_self a l)) hfa
        · exact ih bs (fun x hx => h x (List.mem_cons_of_mem a hx)) hrest b hb

theorem edgeInv_map {Q : Option HighwayTag → Prop} {f : EdgeRow → EdgeRow}
    {l : List EdgeRow}
    (hf : ∀ e, (f e).u = e.u ∧ (f e).v = e.v ∧ (f e).highway = e.highway)
    (h : edgeInv Q l) : edgeInv Q (l.map f) := by
  intro x hx
  obtain ⟨y, hy, rfl⟩ := List.mem_map.mp hx
  obtain ⟨h1, h2, h3⟩ := hf y
  rw [h1, h2, h3]
  exact h y hy

theorem edgeInv_filter {Q : Option HighwayTag → Prop} {l : List EdgeRow}
    {p : EdgeRow → Bool} (h : edgeInv Q l) : edgeInv Q (l.filter p) :=
  edgeInv_of_sub (fun _ hx => List.mem_of_mem_filter hx) h


/-- Peel one in-place update whose per-row function leaves the key fields
(`streetID`, `u`, `v`, `highway`) unchanged. -/
theorem mem_updateEdge_proj {l : List EdgeRow} {sid : Int} {f : EdgeRow → EdgeRow}
    {x : EdgeRow} (hx : x ∈ updateEdge l sid f)
    (hf : ∀ e, (f e).streetID = e.streetID ∧ (f e).u = e.u ∧ (f e).v = e.v ∧
      (f e).highway = e.highway) :
    ∃ y ∈ l, x.streetID = y.streetID ∧ x.u = y.u ∧ x.v = y.v ∧
      x.highway = y.highway := by
  obtain ⟨y, hy, hxy⟩ := mem_updateEdge hx
  by_cases hs : y.streetID = sid
  · rw [hxy, if_pos hs]
    obtain ⟨h1, h2, h3, h4⟩ := hf y
    exact ⟨y, hy, h1, h2, h3, h4⟩
  · rw [hxy, if_neg hs]
    exact ⟨y, hy, rfl, rfl, rfl, rfl⟩

theorem contractNode_inv {Q : Option HighwayTag → Prop} {ud : Bool}
    {dc : Option Unit} {st st' : List NodeRow × List EdgeRow} {nid : Int}
    (h : edgeInv Q st.2) (hok : contractNode ud dc st nid = .ok st') :
    edgeInv Q st'.2 := by
  simp only [contractNode] at hok
  split at hok
  · cases hok; exact h
  · cases hok; exact h
  · rename_i e1 e2 rest heq
    split at hok
    · -- update_densities requested
      split at hok
      · cases hok
      · simp only [Except.bind] at hok
        split at hok
        · -- self-loop produced: both edges dropped
          cases hok
          intro x hx
          have hx2 := List.mem_of_mem_filter hx
          have hxs := List.of_mem_filter hx
          obtain ⟨y, hy, p1, p2, p3, p4⟩ :=
            mem_updateEdge_proj hx2 (fun e => ⟨rfl, rfl, rfl, rfl⟩)
          obtain ⟨y0, hy0, hxy⟩ := mem_updateEdge hy
          by_cases hs : y0.streetID = e1.streetID
          · exfalso
            have hysid : y.streetID = e1.streetID := by
              rw [hxy, if_pos hs]
              exact hs
            have hxsid : x.streetID = e1.streetID := p1.trans hysid
            simp only [dropEdges, decide_not] at hxs
            revert hxs
            simp [hxsid]
          · have hyy0 : y = y0 := by rw [hxy, if_neg hs]
            rw [p2, p3, p4, hyy0]
            exact h y0 hy0
        · -- merge kept: the surviving edge has the (distinct) new endpoints
          rename_i hne
          cases hok
          intro x hx
          have hx2 := List.mem_of_mem_filter hx
          -- peel the conditional pedestrian update
          have hx3 : ∃ y2, y2 ∈ updateEdge (updateEdge (updateEdge st.2 e1.streetID
              (fun e => { e with u := (contractCase e1 e2).1.1, v := (contractCase e1 e2).1.2 }))
              e1.streetID (fun e => { e with density := max e1.density e2.density }))
              e1.streetID (fun e => { e with geometry := (contractCase e1 e2).2.1 ++ (contractCase e1 e2).2.2 }) ∧
              x.streetID = y2.streetID ∧
              x.u = y2.u ∧ x.v = y2.v ∧ x.highway = y2.highway := by
            split at hx2
            · exact mem_updateEdge_proj hx2 (fun e => ⟨rfl, rfl, rfl, rfl⟩)
            · exact ⟨x, hx2, rfl, rfl, rfl, rfl⟩
          obtain ⟨y2, hy2, q1, q2, q3, q4⟩ := hx3
          -- peel the geometry update
          obtain ⟨y1, hy1, r1, r2, r3, r4⟩ :=
            mem_updateEdge_proj hy2 (fun e => ⟨rfl, rfl, rfl, rfl⟩)
          -- peel the density update
          obtain ⟨y05, hy05, s1, s2, s3, s4⟩ :=
            mem_updateEdge_proj hy1 (fun e => ⟨rfl, rfl, rfl, rfl⟩)
          -- the endpoint rewrite itself
          obtain ⟨y0, hy0, hxy⟩ := mem_updateEdge hy05
          by_cases hs : y0.streetID = e1.streetID
          · rw [hxy, if_pos hs] at s2 s3 s4
            constructor
            · rw [q2, r2, s2, q3, r3, s3]
              exact hne
            · rw [q4, r4, s4]
              exact (h y0 hy0).2
          · rw [hxy, if_neg hs] at s2 s3 s4
            constructor
            · rw [q2, r2, s2, q3, r3, s3]
              exact (h y0 hy0).1
            · rw [q4, r4, s4]
              exact (h y0 hy0).2
    · -- no density tracking
      simp only [Except.bind] at hok
      split at hok
      · cases hok
        intro x hx
        have hx2 := List.mem_of_mem_filter hx
        have hxs := List.of_mem_filter hx
        obtain ⟨y0, hy0, hxy⟩ := mem_updateEdge hx2
        by_cases hs : y0.streetID = e1.streetID
        · exfalso
          have hxsid : x.streetID = e1.streetID := by
            rw [hxy, if_pos hs]
            exact hs
          simp only [dropEdges, decide_not] at hxs
          revert hxs
          simp [hxsid]
        · rw [hxy, if_neg hs]
          exact h y0 hy0
      · rename_i hne
        cases hok
        intro x hx
        have hx2 := List.mem_of_mem_filter hx
        have hx3 : ∃ y2, y2 ∈ updateEdge (updateEdge st.2 e1.streetID
            (fun e => { e with u := (contractCase e1 e2).1.1, v := (contractCase e1 e2).1.2 }))
            e1.streetID (fun e => { e with geometry := (contractCase e1 e2).2.1 ++ (contractCase e1 e2).2.2 }) ∧
            x.streetID = y2.streetID ∧
            x.u = y2.u ∧ x.v = y2.v ∧ x.highway = y2.highway := by
          split at hx2
          · exact mem_updateEdge_proj hx2 (fun e => ⟨rfl, rfl, rfl, rfl⟩)
          · exact ⟨x, hx2, rfl, rfl, rfl, rfl⟩
        obtain ⟨y2, hy2, q1, q2, q3, q4⟩ := hx3
        obtain ⟨y1, hy1, r1, r2, r3, r4⟩ :=
          mem_updateEdge_proj hy2 (fun e => ⟨rfl, rfl, rfl, rfl⟩)
        obtain ⟨y0, hy0, hxy⟩ := mem_updateEdge hy1
        by_cases hs : y0.streetID = e1.streetID
        · rw [hxy, if_pos hs] at r2 r3 r4
          constructor
          · rw [q2, r2, q3, r3]
            exact hne
          · rw [q4, r4]
            exact (h y0 hy0).2
        · rw [hxy, if_neg hs] at r2 r3 r4
          constructor
          · rw [q2, r2, q3, r3]
            exact (h y0 hy0).1
          · rw [q4, r4]
            exact (h y0 hy0).2

theorem simplify_graph_inv {Q : Option HighwayTag → Prop} {ud : Bool}
    {dc : Option Unit} {nodes : List NodeRow} {edges : List EdgeRow}
    {st' : List NodeRow × List EdgeRow} (h : edgeInv Q edges)
    (hok : simplify_graph ud dc nodes edges = .ok st') : edgeInv Q st'.2 := by
  simp only [simplify_graph] at hok
  split at hok
  · cases hok; exact h
  · exact foldlExcept_inv (P := fun s => edgeInv Q s.2)
      (fun s a s2 hs hstep => contractNode_inv hs hstep) _ _ _ h hok

theorem processConnector_inv {Q : Option HighwayTag → Prop} {ops : GeomOps}
    {ud : Bool} {dc : Option Unit} {refGeom : List Coord} {refID : Int}
    {edges : List EdgeRow} {c : EdgeRow} {es' : List EdgeRow}
    (h : edgeInv Q edges)
    (hok : processConnector ops ud dc refGeom refID edges c = .ok es') :
    edgeInv Q es' := by
  simp only [processConnector] at hok
  split at hok
  · cases hok; exact h
  · -- the three conditional in-place updates, then the drop
    have h1 : edgeInv Q (if ops.lineLength c.geometry >
        ops.lineLength refGeom * (13 / 10 : ℚ) then edges
      else updateEdge edges refID
        (fun e => { e with geometry := ops.centerLine refGeom c.geometry })) := by
      split
      · exact h
      · intro x hx
        obtain ⟨y, hy, _, p2, p3, p4⟩ :=
          mem_updateEdge_proj hx (fun e => ⟨rfl, rfl, rfl, rfl⟩)
        rw [p2, p3, p4]
        exact h y hy
    have h2 : edgeInv Q (if c.pedestrian = 1 then
        updateEdge (if ops.lineLength c.geometry >
          ops.lineLength refGeom * (13 / 10 : ℚ) then edges
        else updateEdge edges refID
          (fun e => { e with geometry := ops.centerLine refGeom c.geometry }))
          refID (fun e => { e with pedestrian := 1 })
      else (if ops.lineLength c.geometry >
          ops.lineLength refGeom * (13 / 10 : ℚ) then edges
        else updateEdge edges refID
          (fun e => { e with geometry := ops.centerLine refGeom c.geometry }))) := by
      split
      · intro x hx
        obtain ⟨y, hy, _, p2, p3, p4⟩ :=
          mem_updateEdge_proj hx (fun e => ⟨rfl, rfl, rfl, rfl⟩)
        rw [p2, p3, p4]
        exact h1 y hy
      · exact h1
    split at hok
    · split at hok
      · cases hok
      · simp only [Except.map] at hok
        cases hok
        refine edgeInv_filter ?_
        intro x hx
        obtain ⟨y, hy, _, p2, p3, p4⟩ :=
          mem_updateEdge_proj hx (fun e => ⟨rfl, rfl, rfl, rfl⟩)
        rw [p2, p3, p4]
        exact h2 y hy
    · simp only [Except.map] at hok
      cases hok
      exact edgeInv_filter h2

theorem processGroup_inv {Q : Option HighwayTag → Prop} {ops : GeomOps}
    {ud : Bool} {dc : Option Unit} {edges : List EdgeRow} {key : Int × Int}
    {es' : List EdgeRow} (h : edgeInv Q edges)
    (hok : processGroup ops ud dc edges key = .ok es') : edgeInv Q es' := by
  simp only [processGroup] at hok
  split at hok
  · cases hok; exact h
  · exact foldlExcept_inv (P := edgeInv Q)
      (fun s a s2 hs hstep => processConnector_inv hs hstep) _ _ _ h hok

theorem sameUVStep_inv {Q : Option HighwayTag → Prop} {ops : GeomOps}
    {ud : Bool} {dc : Option Unit} {edges : List EdgeRow} {es' : List EdgeRow}
    (h : edgeInv Q edges) (hok : sameUVStep ops ud dc edges = .ok es') :
    edgeInv Q es' := by
  simp only [sameUVStep] at hok
  exact foldlExcept_inv (P := edgeInv Q)
    (fun s a s2 hs hstep => processGroup_inv hs hstep) _ _ _ h hok

theorem fix_dead_ends_inv {Q : Option HighwayTag → Prop} {nodes : List NodeRow}
    {edges : List EdgeRow} (h : edgeInv Q edges) :
    edgeInv Q (fix_dead_ends nodes edges).2 := by
  simp only [fix_dead_ends]
  split
  · exact h
  · exact edgeInv_filter h

theorem passBody_inv {Q : Option HighwayTag → Prop} {ops : GeomOps}
    {de su ud : Bool} {dc : Option Unit}
    {st st' : List NodeRow × List EdgeRow} (h : edgeInv Q st.2)
    (hok : passBody ops de su ud dc st = .ok st') : edgeInv Q st'.2 := by
  simp only [passBody] at hok
  have hA : edgeInv Q (recomputeLengths ops st.2) :=
    edgeInv_map (fun e => ⟨rfl, rfl, rfl⟩) h
  have hB : edgeInv Q (writeCodes (recomputeLengths ops st.2)) :=
    edgeInv_map (fun e => ⟨rfl, rfl, rfl⟩) hA
  have hC : edgeInv Q (setCoords (writeCodes (recomputeLengths ops st.2))) := by
    refine edgeInv_map (fun e => ?_) hB
    split
    · exact ⟨rfl, rfl, rfl⟩
    · exact ⟨rfl, rfl, rfl⟩
  have hD := edgeInv_of_sub
    (fun x hx => mem_dedupByKeyAux (fun e => e.geometry) _ [] x hx) hC
  have hE := edgeInv_of_sub
    (fun x hx => mem_dedupByKeyAux (fun e => e.coords) _ [] x hx) hD
  by_cases hsu : su
  · rw [if_pos hsu] at hok
    cases hres : sameUVStep ops ud dc (dedupByKeyAux (fun e => e.coords) []
        (dedupByKeyAux (fun e => e.geometry) []
          (setCoords (writeCodes (recomputeLengths ops st.2))))) with
    | error er => rw [hres] at hok; cases hok
    | ok F =>
      rw [hres] at hok
      simp only [Except.bind] at hok
      have hF := sameUVStep_inv hE hres
      by_cases hde : de
      · rw [if_pos hde] at hok
        exact simplify_graph_inv (fix_dead_ends_inv hF) hok
      · rw [if_neg hde] at hok
        exact simplify_graph_inv hF hok
  · rw [if_neg hsu] at hok
    simp only [Except.bind] at hok
    by_cases hde : de
    · rw [if_pos hde] at hok
      exact simplify_graph_inv (fix_dead_ends_inv hE) hok
    · rw [if_neg hde] at hok
      exact simplify_graph_inv hE hok

theorem cleanLoop_inv {Q : Option HighwayTag → Prop} {ops : GeomOps}
    {de su ud : Bool} {dc : Option Unit} :
    ∀ (fuel : Nat) (st st' : List NodeRow × List EdgeRow), edgeInv Q st.2 →
    cleanLoop ops de su ud dc fuel st = .ok st' → edgeInv Q st'.2 := by
  intro fuel
  induction fuel with
  | zero =>
    intro st st' h hok
    simp only [cleanLoop, is_edges_simplified] at hok
    split at hok
    · cases hok
    · cases hok
      exact edgeInv_map (fun e => ⟨rfl, rfl, rfl⟩) h
  | succ n ih =>
    intro st st' h hok
    simp only [cleanLoop, is_edges_simplified] at hok
    split at hok
    · cases hpass : passBody ops de su ud dc (st.1, writeCodes st.2) with
      | error er => rw [hpass] at hok; cases hok
      | ok st2 =>
        rw [hpass] at hok
        simp only [Except.bind] at hok
        have h2 : edgeInv Q (st.1, writeCodes st.2).2 :=
          edgeInv_map (fun e => ⟨rfl, rfl, rfl⟩) h
        exact ih st2 st' (passBody_inv h2 hpass) hok
    · cases hok
      exact edgeInv_map (fun e => ⟨rfl, rfl, rfl⟩) h

theorem correct_edges_inv {Q : Option HighwayTag → Prop} {nodes : List NodeRow}
    {edges es' : List EdgeRow} (h : edgeInv Q edges)
    (hok : correct_edges nodes edges = .ok es') : edgeInv Q es' := by
  simp only [correct_edges] at hok
  have hstep : ∀ (a : EdgeRow) (b : EdgeRow), (a.u ≠ a.v ∧ Q a.highway) →
      ((update_line_geometry_coords a.u a.v nodes a.geometry).map
        (fun g => { a with geometry := g })) = .ok b →
      (b.u ≠ b.v ∧ Q b.highway) := by
    intro a b ha hab
    cases hup : update_line_geometry_coords a.u a.v nodes a.geometry with
    | error er => rw [hup] at hab; cases hab
    | ok g =>
      rw [hup] at hab
      simp only [Except.map] at hab
      cases hab
      exact ha
  intro b hb
  exact mapExcept_inv hstep edges es' (fun a ha => h a ha) hok b hb

theorem islandFilter_sub {nodes : List NodeRow} {edges : List EdgeRow} :
    ∀ x ∈ (islandFilter nodes edges).2, x ∈ edges := by
  simp only [islandFilter]
  split
  · exact fun x hx => hx
  · split
    · exact fun x hx => hx
    · exact fun x hx => List.mem_of_mem_filter hx

theorem duplicate_nodes_ok {nodes ns : List NodeRow} {edges es : List EdgeRow}
    (hok : duplicate_nodes nodes edges = .ok (ns, es)) :
    ns = nodes ∧ es = edges := by
  simp only [duplicate_nodes] at hok
  split at hok
  · cases hok; exact ⟨rfl, rfl⟩
  · cases hok

theorem highwayStep_pres {Q : Option HighwayTag → Prop} {l : List EdgeRow}
    (h : edgeInv Q l) : edgeInv Q (highwayStep l) := by
  simp only [highwayStep]
  refine edgeInv_map (fun e => ?_)
    (edgeInv_filter (edgeInv_map (fun e => ⟨rfl, rfl, rfl⟩) h))
  split
  · exact ⟨rfl, rfl, rfl⟩
  · exact ⟨rfl, rfl, rfl⟩

/-- The invariant carried from the pre-loop edge table to the returned
one: every loop pass, the reconciliation and the island filter preserve
it.  The `hinit` hypothesis is stated over the edge table as it stands
after the entry steps of lines 276-288 (on the success path of the node
deduplication, which returns its inputs unchanged). -/
theorem clean_network_inv {Q : Option HighwayTag → Prop} {ops : GeomOps}
    {hH dE rI sU ud : Bool} {dc : Option Unit} {fuel : Nat}
    {nodes ns : List NodeRow} {edges : List EdgeRow} {es : List EdgeRow}
    (hok : clean_network ops hH dE rI sU ud dc fuel nodes edges = .ok (ns, es))
    (hinit : edgeInv Q (if hH then
      highwayStep ((sortByStreetID (edges.filter (fun e => e.u ≠ e.v))).map
        (fun e => { e with code := none, coords := none }))
      else (sortByStreetID (edges.filter (fun e => e.u ≠ e.v))).map
        (fun e => { e with code := none, coords := none }))) :
    edgeInv Q es := by
  simp only [clean_network] at hok
  cases hdup : duplicate_nodes (setXY nodes)
      (edges.filter (fun e => e.u ≠ e.v)) with
  | error er => rw [hdup] at hok; simp only [Except.bind] at hok; cases hok
  | ok p =>
    rw [hdup] at hok
    simp only [Except.bind] at hok
    obtain ⟨hn1, he1⟩ := duplicate_nodes_ok hdup
    rw [hn1, he1] at hok
    cases hloop : cleanLoop ops dE sU ud dc fuel (setXY nodes,
        if hH then highwayStep
          ((sortByStreetID (edges.filter (fun e => e.u ≠ e.v))).map
            (fun e => { e with code := none, coords := none }))
        else (sortByStreetID (edges.filter (fun e => e.u ≠ e.v))).map
          (fun e => { e with code := none, coords := none })) with
    | error er => rw [hloop] at hok; simp only [Except.bind] at hok; cases hok
    | ok st =>
      rw [hloop] at hok
      simp only [Except.bind] at hok
      have h5 : edgeInv Q st.2 := cleanLoop_inv (Q := Q) fuel _ st hinit hloop
      cases hcorr : correct_edges (setXY st.1) (dropTempCols st.2) with
      | error er => rw [hcorr] at hok; simp only [Except.map] at hok; cases hok
      | ok edges7 =>
        rw [hcorr] at hok
        simp only [Except.map] at hok
        have h6 : edgeInv Q (dropTempCols st.2) :=
          edgeInv_map (fun e => ⟨rfl, rfl, rfl⟩) h5
        have h7 : edgeInv Q edges7 := correct_edges_inv h6 hcorr
        by_cases hri : rI
        · rw [if_pos hri] at hok
          have hes : es = (islandFilter (setXY st.1) edges7).2 :=
            congrArg Prod.snd (Except.ok.inj hok).symm
          rw [hes]
          exact edgeInv_of_sub islandFilter_sub h7
        · rw [if_neg hri] at hok
          have hes : es = edges7 :=
            congrArg Prod.snd (Except.ok.inj hok).symm
          rw [hes]
          exact h7

/-- Once the loop reaches a state that the pass maps to itself while the
loop condition still holds, no amount of fuel makes it exit. -/
theorem cleanLoop_stuck {ops : GeomOps} {de su ud : Bool} {dc : Option Unit}
    {st : List NodeRow × List EdgeRow}
    (hw : writeCodes st.2 = st.2)
    (hc : ((!(is_edges_simplified st.2).1) ||
      (!(is_nodes_simplified (is_edges_simplified st.2).2))) = true)
    (hp : passBody ops de su ud dc st = .ok st) :
    ∀ fuel, cleanLoop ops de su ud dc fuel st = .error .fuelExhausted := by
  intro fuel
  induction fuel with
  | zero =>
    simp only [cleanLoop]
    rw [if_pos hc]
  | succ n ih =>
    simp only [cleanLoop]
    rw [if_pos hc]
    have hst : ((st.1, (is_edges_simplified st.2).2) :
        List NodeRow × List EdgeRow) = st := by
      simp only [is_edges_simplified]
      rw [hw]
    rw [hst, hp]
    simpa using ih

/-- C6: the claim states that the cleaning loop of `clean_network`
terminates after finitely many iterations for every input.  It does not:
with `same_uv_edges = false` and two distinct-geometry parallel edges
whose endpoints have join-degree 4, every pass maps the working tables to
themselves while two edges keep sharing the canonical key `(0, 1)`, so
the loop condition never turns false and the call exhausts every fuel
bound (the source loop, which has no bound, never returns). -/
theorem C6_clean_network_never_terminates :
    ∀ fuel : Nat, clean_network ops0 false false false false false none fuel
      c6Nodes c6Edges = .error .fuelExhausted := by
  have hw : writeCodes c6Fix.2 = c6Fix.2 := by decide
  have hc : ((!(is_edges_simplified c6Fix.2).1) ||
      (!(is_nodes_simplified (is_edges_simplified c6Fix.2).2))) = true := by decide
  have hp : passBody ops0 false false false none c6Fix = .ok c6Fix := by decide
  have hstuck := cleanLoop_stuck hw hc hp
  have hloopAll : ∀ f : Nat, cleanLoop ops0 false false false none f c6Entry =
      .error .fuelExhausted := by
    intro f
    cases f with
    | zero => decide
    | succ n =>
      have hcond : ((!(is_edges_simplified c6Entry.2).1) ||
          (!(is_nodes_simplified (is_edges_simplified c6Entry.2).2))) = true := by
        decide
      have hpass : passBody ops0 false false false none
          (c6Entry.1, (is_edges_simplified c6Entry.2).2) = .ok c6Fix := by decide
      simp only [cleanLoop]
      rw [if_pos hcond, hpass]
      simp only [Except.bind]
      exact hstuck n
  intro fuel
  show (cleanLoop ops0 false false false none fuel c6Entry).bind _ =
    .error .fuelExhausted
  rw [hloopAll fuel]
  rfl

/-- C1: `simplify_graph` contracts degree-2 node 2, whose two incident
edges share their `v` endpoint (case four).  The claim says the merged
coordinate sequence is continuous at the join and runs from the new `u`
node's coordinates to the new `v` node's coordinates.  Evaluating the
code on endpoint-consistent inputs (each input geometry starts at its
`u` node `(0,0)` resp. `(10,0)` and ends at the shared node `(5,5)`)
yields the surviving edge `u = 0, v = 1` with geometry
`[(0,0), (5,5), (10,0), (5,5)]`: the second list is not reversed, so the
line jumps from `(5,5)` to `(10,0)` at the join and ends at the shared
node's coordinates `(5,5)` instead of node 1's `(10,0)`. -/
theorem C1_shared_v_merge_discontinuous :
    simplify_graph false none c1Nodes c1Edges =
      .ok ([⟨0, ((0 : ℚ), (0 : ℚ)), 0, 0⟩, ⟨1, ((10 : ℚ), (0 : ℚ)), 10, 0⟩],
        [⟨0, 0, 1, [((0 : ℚ), (0 : ℚ)), ((5 : ℚ), (5 : ℚ)), ((10 : ℚ), (0 : ℚ)),
          ((5 : ℚ), (5 : ℚ))], 0, none, 0, 0, none, none⟩]) ∧
    c1Edges.map (fun e => e.geometry.head?) =
      [some ((0 : ℚ), (0 : ℚ)), some ((10 : ℚ), (0 : ℚ))] ∧
    c1Edges.map (fun e => e.geometry.getLast?) =
      [some ((5 : ℚ), (5 : ℚ)), some ((5 : ℚ), (5 : ℚ))] ∧
    (((5 : ℚ), (5 : ℚ)) : Coord) ≠ ((10 : ℚ), (0 : ℚ)) := by
  refine ⟨by decide, by decide, by decide, by decide⟩

/-- C8: on any input with two identical node geometries,
`duplicate_nodes` evaluates the misspelled column `geomety` (line 79) and
raises `AttributeError` instead of deduplicating and remapping edge
endpoints; on duplicate-free input it returns the (copied) tables
unchanged, as the claim says. -/
theorem C8_duplicate_nodes_crashes_on_duplicates :
    duplicate_nodes c8DupNodes [] = .error .attrError ∧
    duplicate_nodes c8DistinctNodes c8Edges = .ok (c8DistinctNodes, c8Edges) := by
  refine ⟨by decide, by decide⟩

/-- C9 (counterexample): `is_edges_simplified` writes the canonical-key
`code` column into the caller's edge table (lines 155-157 operate on the
argument, no copy is taken), so a caller's table with an unset `code`
column differs after the call — contradicting the claim that every
component leaves its arguments unchanged. -/
theorem C9_counterexample_is_edges_simplified_mutates :
    (is_edges_simplified c9Edges).2 ≠ c9Edges := by decide

/-- C9 (amended): `fix_dead_ends`, `simplify_graph` and `clean_network`
copy their inputs before mutating, and `is_nodes_simplified` only reads;
but `is_edges_simplified` leaves the caller's edge table with the `code`
column rewritten (unchanged exactly when every row already carries its
canonical key), and `duplicate_nodes` reassigns the caller's node-table
index to the `nodeID` column whenever the two differ (line 64 runs before
the copies of line 65). -/
theorem C9_amended_mutation_characterised :
    (∀ edges : List EdgeRow, (is_edges_simplified edges).2 = edges ↔
      ∀ e ∈ edges, e.code = some (mkCode e)) ∧
    (∀ (idx : List Int) (nodes : List NodeRow),
      duplicate_nodes_callerIdx idx nodes = idx ↔
        idx = nodes.map (fun n => n.nodeID)) := by
  constructor
  · intro edges
    simp only [is_edges_simplified, writeCodes]
    induction edges with
    | nil => simp
    | cons a l ih =>
      simp only [List.map_cons, List.mem_cons]
      constructor
      · intro hh
        have h1 := List.head_eq_of_cons_eq hh
        have h2 := List.tail_eq_of_cons_eq hh
        intro e he
        rcases he with he | he
        · rw [he]
          exact (congrArg EdgeRow.code h1).symm
        · exact (ih.mp h2) e he
      · intro hh
        have h1 : a.code = some (mkCode a) := hh a (Or.inl rfl)
        have h2 : List.map (fun e => { e with code := some (mkCode e) }) l = l :=
          ih.mpr (fun e he => hh e (Or.inr he))
        rw [h2]
        cases a with
        | mk s u v g p hw d len c co =>
          simp only [mkCode] at h1 ⊢
          rw [← h1]
  · intro idx nodes
    simp only [duplicate_nodes_callerIdx]
    by_cases hh : idx = nodes.map (fun n => n.nodeID)
    · simp [hh]
    · simp only [if_neg hh]
      constructor
      · intro heq
        exact absurd heq.symm hh
      · intro heq
        exact absurd heq hh

/-- C5 (counterexample): calling `clean_network` with
`update_densities = true` and no `densities_column` on an
already-simplified network raises no configuration error at all: the
`columnError` raise of line 341 sits inside the parallel-edge merge
loop, which never runs here.  The call is not error-free either — it
dies much later, after the whole cleaning loop, with the unrelated
`TypeError` of `update_line_geometry_coords` (line 411) — but the error
that reaches the caller is not the configuration error the claim
requires, and it is not raised immediately. -/
theorem C5_counterexample_no_error_raised :
    clean_network ops0 false false true false true none 7 c5Nodes c5Edges =
      .error .typeError ∧ PyErr.typeError ≠ PyErr.columnMissing := by
  refine ⟨by decide, by decide⟩

/-- C5 (amended): with `update_densities = true` and no column name, the
configuration error is raised only when a merge actually processes
densities: the parallel-edge resolver raises the module's `columnError`
on the first non-reference connector it handles, and pseudo-node
contraction of a degree-2 node fails at the `None`-column row lookup
(`KeyError`); a call in which neither step runs raises no configuration
error — density tracking is silently skipped and the run proceeds to the
post-loop geometry reconciliation (which fails for its own, unrelated
reason on nonempty edge tables). -/
theorem C5_amended_error_only_at_merge_steps :
    (∀ (ops : GeomOps) (refGeom : List Coord) (refID : Int)
      (edges : List EdgeRow) (c : EdgeRow), c.streetID ≠ refID →
      processConnector ops true none refGeom refID edges c =
        .error .columnMissing) ∧
    (∀ (st : List NodeRow × List EdgeRow) (nid : Int) (e1 e2 : EdgeRow)
      (rest : List EdgeRow),
      st.2.filter (fun e => e.u = nid ∨ e.v = nid) = e1 :: e2 :: rest →
      contractNode true none st nid = .error .keyError) := by
  constructor
  · intro ops refGeom refID edges c hne
    simp only [processConnector]
    rw [if_neg hne]
    rfl
  · intro st nid e1 e2 rest heq
    simp only [contractNode]
    rw [heq]
    rfl

/-- C5 witness: both amended error sites evaluated at concrete inputs. -/
theorem C5_amended_witness :
    processConnector ops0 true none c2Ref.geometry 0 [c2Ref, c2Conn] c2Conn =
      .error .columnMissing ∧
    contractNode true none (c3Nodes, c3Edges) 2 = .error .keyError := by
  constructor
  · exact C5_amended_error_only_at_merge_steps.1 ops0 c2Ref.geometry 0
      [c2Ref, c2Conn] c2Conn (by decide)
  · exact C5_amended_error_only_at_merge_steps.2 (c3Nodes, c3Edges) 2
      ⟨0, 0, 2, [((0 : ℚ), (0 : ℚ)), ((1 : ℚ), (0 : ℚ))], 0, none, 3, 1, none, none⟩
      ⟨1, 2, 1, [((1 : ℚ), (0 : ℚ)), ((2 : ℚ), (0 : ℚ))], 0, none, 7, 1, none, none⟩
      [] (by decide)

theorem update_line_geometry_spec {u : Int} (v : Int) {nodes : List NodeRow}
    (g : List Coord) {nu : NodeRow}
    (hu : nodes.find? (fun n => n.nodeID = u) = some nu) :
    update_line_geometry_coords u v nodes g = .error .typeError := by
  simp only [update_line_geometry_coords, hu]

/-- C4: the claim says that after `correct_edges` runs, every edge's
geometry starts at its `u` node's coordinates and ends at its `v`
node's.  The function can never establish this: line 410 takes
`old_line_geometry.coords` without `list(...)`, so the item assignments
of lines 411-412 hit a shapely `CoordinateSequence` and raise
`TypeError` on every edge whose `u` label resolves — `correct_edges`
raises on every nonempty edge table instead of reconciling anything. -/
theorem C4_correct_edges_always_raises
    (nodes : List NodeRow) (e : EdgeRow) (es : List EdgeRow)
    (h : (nodes.find? (fun n => n.nodeID = e.u)).isSome = true) :
    correct_edges nodes (e :: es) = .error .typeError := by
  obtain ⟨nu, hnu⟩ := Option.isSome_iff_exists.mp h
  simp only [correct_edges, mapExcept, update_line_geometry_coords, hnu,
    Except.map, Except.bind]

/-- C4 witness: the crash evaluated on a concrete two-node, one-edge
table whose `u` and `v` both resolve. -/
theorem C4_raise_witness :
    correct_edges c4Nodes c4Edges = .error PyErr.typeError :=
  C4_correct_edges_always_raises c4Nodes
    ⟨0, 0, 1, [((0 : ℚ), (0 : ℚ)), ((5 : ℚ), (5 : ℚ)), ((9 : ℚ), (9 : ℚ))], 0, none, 0, 0, none, none⟩
    [] (by decide)

theorem sid_unique {l : List EdgeRow}
    (huniq : l.Pairwise (fun a b => a.streetID ≠ b.streetID)) :
    ∀ y ∈ l, ∀ z ∈ l, y.streetID = z.streetID → y = z := by
  induction l with
  | nil => intro y hy; cases hy
  | cons a l ih =>
    intro y hy z hz hsid
    rcases List.mem_cons.mp hy with hy | hy <;>
      rcases List.mem_cons.mp hz with hz | hz
    · rw [hy, hz]
    · exfalso
      have := (List.pairwise_cons.mp huniq).1 z hz
      rw [hy] at hsid
      exact this hsid
    · exfalso
      have := (List.pairwise_cons.mp huniq).1 y hy
      rw [hz] at hsid
      exact this hsid.symm
    · exact ih (List.pairwise_cons.mp huniq).2 y hy z hz hsid

theorem updateEdge_mem_of_ne {l : List EdgeRow} {sid : Int} {f : EdgeRow → EdgeRow}
    (hf : ∀ e, (f e).streetID = e.streetID) :
    ∀ x ∈ updateEdge l sid f, x.streetID ≠ sid → x ∈ l := by
  intro x hx hxs
  obtain ⟨y, hy, hxy⟩ := mem_updateEdge hx
  by_cases hs : y.streetID = sid
  · exfalso
    rw [hxy, if_pos hs] at hxs
    exact hxs ((hf y).trans hs)
  · rw [hxy, if_neg hs]
    exact hy

theorem updateEdge_at_sid {l : List EdgeRow} {sid : Int} {f : EdgeRow → EdgeRow}
    (huniq : l.Pairwise (fun a b => a.streetID ≠ b.streetID)) :
    ∀ x ∈ updateEdge l sid f, x.streetID = sid →
      ∀ y ∈ l, y.streetID = sid → x = f y := by
  intro x hx hxs y hy hys
  obtain ⟨y0, hy0, hxy⟩ := mem_updateEdge hx
  by_cases hs : y0.streetID = sid
  · rw [hxy, if_pos hs]
    rw [sid_unique huniq y hy y0 hy0 (hys.trans hs.symm)]
  · exfalso
    rw [hxy, if_neg hs] at hxs
    exact hs hxs

theorem ite_eq_updateEdge {l : List EdgeRow} {sid : Int} {f : EdgeRow → EdgeRow}
    (cond : Prop) [Decidable cond] :
    (if cond then updateEdge l sid f else l) =
      updateEdge l sid (fun e => if cond then f e else e) := by
  by_cases h : cond
  · simp only [if_pos h]
  · simp only [if_neg h, updateEdge, ite_self, List.map_id']

theorem updateEdge_eq_ite {l : List EdgeRow} {sid : Int} {f : EdgeRow → EdgeRow}
    (cond : Prop) [Decidable cond] :
    (if cond then l else updateEdge l sid f) =
      updateEdge l sid (fun e => if cond then e else f e) := by
  by_cases h : cond
  · simp only [if_pos h, updateEdge, ite_self, List.map_id']
  · simp only [if_neg h]

theorem updateEdge_comp {l : List EdgeRow} {sid : Int} {f g : EdgeRow → EdgeRow}
    (hf : ∀ e, (f e).streetID = e.streetID) :
    updateEdge (updateEdge l sid f) sid g =
      updateEdge l sid (fun e => g (f e)) := by
  simp only [updateEdge, List.map_map]
  refine List.map_congr_left ?_
  intro e _
  by_cases h : e.streetID = sid
  · simp [Function.comp, h, hf]
  · simp [Function.comp, h]

theorem processConnector_spec {ops : GeomOps} {ud : Bool} {dc : Option Unit}
    {refGeom : List Coord} {refID : Int} {edges es' : List EdgeRow} {c : EdgeRow}
    (huniq : edges.Pairwise (fun a b => a.streetID ≠ b.streetID))
    (hne : c.streetID ≠ refID)
    (hok : processConnector ops ud dc refGeom refID edges c = .ok es') :
    (ud = true → dc ≠ none) ∧
    (∀ x ∈ es', x.streetID ≠ c.streetID) ∧
    (∀ x ∈ es', x.streetID ≠ refID → x ∈ edges) ∧
    (∀ x ∈ es', x.streetID = refID → ∀ y ∈ edges, y.streetID = refID →
      x.u = y.u ∧ x.v = y.v ∧ x.highway = y.highway ∧ x.code = y.code ∧
      x.geometry = (if ops.lineLength c.geometry >
        ops.lineLength refGeom * (13 / 10 : ℚ) then y.geometry
        else ops.centerLine refGeom c.geometry) ∧
      x.pedestrian = (if c.pedestrian = 1 then 1 else y.pedestrian) ∧
      x.density = (if ud then y.density + c.density else y.density)) := by
  simp only [processConnector] at hok
  rw [if_neg hne] at hok
  rw [updateEdge_eq_ite (ops.lineLength c.geometry >
    ops.lineLength refGeom * (13 / 10 : ℚ))] at hok
  rw [ite_eq_updateEdge (c.pedestrian = 1)] at hok
  split at hok
  · -- update_densities requested
    split at hok
    · cases hok
    · rename_i hud uval hdc
      rw [updateEdge_comp (by
        intro e
        by_cases h2 : c.pedestrian = 1 <;> simp [h2])] at hok
      rw [updateEdge_comp (by
        intro e
        by_cases h1 : ops.lineLength c.geometry >
          ops.lineLength refGeom * (13 / 10 : ℚ) <;> simp [h1])] at hok
      simp only [Except.map] at hok
      cases hok
      refine ⟨fun _ => by simp, ?_, ?_, ?_⟩
      · intro x hx
        have := List.of_mem_filter hx
        simpa using this
      · intro x hx hxr
        exact updateEdge_mem_of_ne
          (by intro e
              by_cases h1 : ops.lineLength c.geometry >
                ops.lineLength refGeom * (13 / 10 : ℚ) <;>
                by_cases h2 : c.pedestrian = 1 <;> simp [h1, h2]) x
          (List.mem_of_mem_filter hx) hxr
      · intro x hx hxr y hy hyr
        have hxF := updateEdge_at_sid huniq x (List.mem_of_mem_filter hx) hxr y hy hyr
        rw [hxF]
        by_cases h1 : ops.lineLength c.geometry >
            ops.lineLength refGeom * (13 / 10 : ℚ) <;>
          by_cases h2 : c.pedestrian = 1 <;>
          simp [h1, h2, hud]
  · -- no density tracking
    rename_i hud
    rw [updateEdge_comp (by
      intro e
      by_cases h1 : ops.lineLength c.geometry >
        ops.lineLength refGeom * (13 / 10 : ℚ) <;> simp [h1])] at hok
    simp only [Except.map] at hok
    cases hok
    have hudf : ud = false := by
      cases ud
      · rfl
      · exact absurd rfl hud
    refine ⟨fun h => absurd h (by simp [hudf]), ?_, ?_, ?_⟩
    · intro x hx
      have := List.of_mem_filter hx
      simpa using this
    · intro x hx hxr
      exact updateEdge_mem_of_ne
        (by intro e
            by_cases h1 : ops.lineLength c.geometry >
              ops.lineLength refGeom * (13 / 10 : ℚ) <;>
              by_cases h2 : c.pedestrian = 1 <;> simp [h1, h2]) x
        (List.mem_of_mem_filter hx) hxr
    · intro x hx hxr y hy hyr
      have hxF := updateEdge_at_sid huniq x (List.mem_of_mem_filter hx) hxr y hy hyr
      rw [hxF]
      by_cases h1 : ops.lineLength c.geometry >
          ops.lineLength refGeom * (13 / 10 : ℚ) <;>
        by_cases h2 : c.pedestrian = 1 <;>
        simp [h1, h2, hudf]

/-- C2 (counterexample): the claim says a parallel edge more than 30%
longer than the reference is "discarded without any geometry,
pedestrian-flag, or density change to the reference edge".  On a
two-edge group whose connector is twice the reference's length the code
leaves the geometry alone but still ORs the connector's pedestrian flag
into the reference and adds its density (the `pass` of line 333 skips
only the centerline assignment; lines 339-343 run for every connector). -/
theorem C2_counterexample_over30_still_propagates :
    ops0.lineLength c2Conn.geometry >
      ops0.lineLength c2Ref.geometry * (13 / 10 : ℚ) ∧
    c2Ref.pedestrian = 0 ∧ c2Ref.density = 3 ∧
    processGroup ops0 true (some ()) [c2Ref, c2Conn] (0, 1) =
      .ok [{ c2Ref with pedestrian := 1, density := 10 }] := by
  refine ⟨by decide, by decide, by decide, by decide⟩

/-- C2 (amended): in the duplicate/parallel-edge resolver, each
duplicated-key group is sorted by length ascending and the head of the
sorted group — a shortest edge — is the reference; each non-reference
edge is processed against the group's snapshot reference geometry:
its centerline only replaces the reference geometry when the connector
is within the 30% bound, while its pedestrian flag is OR-ed into the
reference and its density added (when density tracking is enabled;
reaching a connector with tracking enabled but no column name is the
error case) for every connector, in or out of bound, and the connector
row is dropped; rows outside the group are untouched. -/
theorem C2_amended_resolver_behaviour :
    (∀ (edges : List EdgeRow) (key : Int × Int) (r : EdgeRow)
      (rest : List EdgeRow),
      sortByLength (edges.filter (fun e => e.code = some key)) = r :: rest →
      ∀ x ∈ edges, x.code = some key → r.length ≤ x.length) ∧
    (∀ (ops : GeomOps) (ud : Bool) (dc : Option Unit) (refGeom : List Coord)
      (refID : Int) (edges es' : List EdgeRow) (c : EdgeRow),
      edges.Pairwise (fun a b => a.streetID ≠ b.streetID) →
      c.streetID ≠ refID →
      processConnector ops ud dc refGeom refID edges c = .ok es' →
      (ud = true → dc ≠ none) ∧
      (∀ x ∈ es', x.streetID ≠ c.streetID) ∧
      (∀ x ∈ es', x.streetID ≠ refID → x ∈ edges) ∧
      (∀ x ∈ es', x.streetID = refID → ∀ y ∈ edges, y.streetID = refID →
        x.u = y.u ∧ x.v = y.v ∧ x.highway = y.highway ∧ x.code = y.code ∧
        x.geometry = (if ops.lineLength c.geometry >
          ops.lineLength refGeom * (13 / 10 : ℚ) then y.geometry
          else ops.centerLine refGeom c.geometry) ∧
        x.pedestrian = (if c.pedestrian = 1 then 1 else y.pedestrian) ∧
        x.density = (if ud then y.density + c.density else y.density))) := by
  constructor
  · intro edges key r rest hsort x hx hcode
    have hmemf : x ∈ edges.filter (fun e => e.code = some key) :=
      List.mem_filter.mpr ⟨hx, by simp [hcode]⟩
    have hmem2 : x ∈ sortByLength (edges.filter (fun e => e.code = some key)) := by
      simp only [sortByLength, List.mem_insertionSort]
      exact hmemf
    rw [hsort] at hmem2
    have hsorted : List.Sorted (fun a b : EdgeRow => a.length ≤ b.length)
        (r :: rest) := by
      rw [← hsort]
      exact List.sorted_insertionSort _ _
    rcases List.mem_cons.mp hmem2 with h2 | h2
    · rw [h2]
    · exact (List.sorted_cons.mp hsorted).1 x h2
  · intro ops ud dc refGeom refID edges es' c huniq hne hok
    exact processConnector_spec huniq hne hok

/-- C2 witness: the resolver parts applied on a concrete two-edge group
(the shorter `c2Ref` is the reference; `c2Conn` is its connector). -/
theorem C2_amended_witness :
    (∀ x ∈ [c2Ref, c2Conn], x.code = some ((0 : Int), (1 : Int)) →
      c2Ref.length ≤ x.length) ∧
    (∀ x ∈ [{ c2Ref with pedestrian := 1, density := 10 }],
      x.streetID = (0 : Int) → ∀ y ∈ [c2Ref, c2Conn], y.streetID = (0 : Int) →
        x.density = (if true then y.density + c2Conn.density else y.density)) := by
  constructor
  · exact C2_amended_resolver_behaviour.1 [c2Ref, c2Conn] (0, 1) c2Ref [c2Conn]
      (by decide)
  · intro x hx hxr y hy hyr
    exact ((C2_amended_resolver_behaviour.2 ops0 true (some ()) c2Ref.geometry 0
      [c2Ref, c2Conn] [{ c2Ref with pedestrian := 1, density := 10 }] c2Conn
      (by decide) (by decide) (by decide)).2.2.2 x hx hxr y hy hyr).2.2.2.2.2.2

/-- Peel one in-place update whose per-row function leaves `streetID` and
`density` unchanged. -/
theorem mem_updateEdge_projD {l : List EdgeRow} {sid : Int}
    {f : EdgeRow → EdgeRow} {x : EdgeRow} (hx : x ∈ updateEdge l sid f)
    (hf : ∀ e, (f e).streetID = e.streetID ∧ (f e).density = e.density) :
    ∃ y ∈ l, x.streetID = y.streetID ∧ x.density = y.density := by
  obtain ⟨y, hy, hxy⟩ := mem_updateEdge hx
  by_cases hs : y.streetID = sid
  · rw [hxy, if_pos hs]
    obtain ⟨h1, h2⟩ := hf y
    exact ⟨y, hy, h1, h2⟩
  · rw [hxy, if_neg hs]
    exact ⟨y, hy, rfl, rfl⟩

theorem contractNode_density_max {ud : Bool} {dc : Option Unit}
    {st : List NodeRow × List EdgeRow} {nid : Int} {e1 e2 : EdgeRow}
    {rest : List EdgeRow} {ns : List NodeRow} {es : List EdgeRow}
    (hud : ud = true)
    (heq : st.2.filter (fun e => e.u = nid ∨ e.v = nid) = e1 :: e2 :: rest)
    (hok : contractNode ud dc st nid = .ok (ns, es)) :
    ∀ e ∈ es, e.streetID = e1.streetID →
      e.density = max e1.density e2.density := by
  simp only [contractNode] at hok
  split at hok
  · rename_i h2
    rw [heq] at h2
    cases h2
  · rename_i x h2
    rw [heq] at h2
    cases h2
  · rename_i f1 f2 frest h2
    rw [heq] at h2
    injection h2 with hf1 h3
    injection h3 with hf2 h4
    subst hf1 hf2
    split at hok
    · split at hok
      · cases hok
      · simp only [Except.bind] at hok
        have hdens : ∀ x ∈ updateEdge (updateEdge st.2 e1.streetID
            (fun e => { e with u := (contractCase e1 e2).1.1, v := (contractCase e1 e2).1.2 }))
            e1.streetID (fun e => { e with density := max e1.density e2.density }),
            x.streetID = e1.streetID →
              x.density = max e1.density e2.density := by
          intro x hx hxs
          obtain ⟨y, hy, hxy⟩ := mem_updateEdge hx
          by_cases hs : y.streetID = e1.streetID
          · rw [hxy, if_pos hs]
          · exfalso
            rw [hxy, if_neg hs] at hxs
            exact hs hxs
        split at hok
        · -- self-loop: both rows dropped, conclusion vacuous
          cases hok
          intro x hx hxs
          have hxf := List.of_mem_filter hx
          simp only [dropEdges, decide_not] at hxf
          exfalso
          revert hxf
          simp [hxs]
        · -- merge kept: peel the pedestrian and geometry updates
          cases hok
          intro x hx hxs
          have hx2 := List.mem_of_mem_filter hx
          have hx3 : ∃ y2, y2 ∈ updateEdge (updateEdge (updateEdge st.2 e1.streetID
              (fun e => { e with u := (contractCase e1 e2).1.1, v := (contractCase e1 e2).1.2 }))
              e1.streetID (fun e => { e with density := max e1.density e2.density }))
              e1.streetID (fun e => { e with geometry := (contractCase e1 e2).2.1 ++ (contractCase e1 e2).2.2 }) ∧
              x.streetID = y2.streetID ∧ x.density = y2.density := by
            split at hx2
            · exact mem_updateEdge_projD hx2 (fun e => ⟨rfl, rfl⟩)
            · exact ⟨x, hx2, rfl, rfl⟩
          obtain ⟨y2, hy2, q1, q2⟩ := hx3
          obtain ⟨y1, hy1, r1, r2⟩ := mem_updateEdge_projD hy2 (fun e => ⟨rfl, rfl⟩)
          rw [q2, r2]
          exact hdens y1 hy1 (by rw [← r1, ← q1, hxs])
    · rename_i hudf
      rw [hud] at hudf
      exact absurd rfl hudf

/-- C3: density combination during merges.  When density tracking is on
(a column is named), a pseudo-node contraction gives the surviving edge
the maximum of the two merged edges' densities (`simplify_graph`
line 222), and the parallel-edge centerline step gives the surviving
reference of a two-edge group the sum of the two densities
(`clean_network` line 342). -/
theorem C3_density_combination :
    (∀ (st : List NodeRow × List EdgeRow) (nid : Int) (e1 e2 : EdgeRow)
      (ns : List NodeRow) (es : List EdgeRow),
      st.2.filter (fun e => e.u = nid ∨ e.v = nid) = [e1, e2] →
      contractNode true (some ()) st nid = .ok (ns, es) →
      ∀ e ∈ es, e.streetID = e1.streetID →
        e.density = max e1.density e2.density) ∧
    (∀ (ops : GeomOps) (edges es : List EdgeRow) (key : Int × Int)
      (a b : EdgeRow),
      edges.Pairwise (fun x y => x.streetID ≠ y.streetID) →
      edges.filter (fun e => e.code = some key) = [a, b] →
      processGroup ops true (some ()) edges key = .ok es →
      ∀ x ∈ es, x.code = some key → x.density = a.density + b.density) := by
  constructor
  · intro st nid e1 e2 ns es heq hok
    exact contractNode_density_max rfl heq hok
  · intro ops edges es key a b huniq heq hok
    have hpw : (edges.filter (fun e => e.code = some key)).Pairwise
        (fun x y => x.streetID ≠ y.streetID) :=
      huniq.sublist (List.filter_sublist edges)
    rw [heq] at hpw
    have hab : a.streetID ≠ b.streetID :=
      (List.pairwise_cons.mp hpw).1 b (List.mem_cons_self b [])
    have hamem : a ∈ edges := by
      have h2 : a ∈ edges.filter (fun e => e.code = some key) := by
        rw [heq]
        exact List.mem_cons_self a [b]
      exact List.mem_of_mem_filter h2
    have hbmem : b ∈ edges := by
      have h2 : b ∈ edges.filter (fun e => e.code = some key) := by
        rw [heq]
        exact List.mem_cons_of_mem a (List.mem_cons_self b [])
      exact List.mem_of_mem_filter h2
    have honly : ∀ x ∈ edges, x.code = some key → x = a ∨ x = b := by
      intro x hx hcode
      have h2 : x ∈ edges.filter (fun e => e.code = some key) :=
        List.mem_filter.mpr ⟨hx, by simp [hcode]⟩
      rw [heq] at h2
      rcases List.mem_cons.mp h2 with h | h
      · exact Or.inl h
      · exact Or.inr (by simpa using h)
    have main : ∀ r cn : EdgeRow, r ∈ edges → cn.streetID ≠ r.streetID →
        r.density + cn.density = a.density + b.density →
        (∀ x ∈ edges, x.code = some key → x = r ∨ x = cn) →
        foldlExcept (processConnector ops true (some ()) r.geometry r.streetID)
          edges [r, cn] = .ok es →
        ∀ x ∈ es, x.code = some key → x.density = a.density + b.density := by
      intro r cn hrmem hrc hsum honly2 hfold x hx hcode
      have hskip : processConnector ops true (some ()) r.geometry r.streetID
          edges r = .ok edges := by
        simp [processConnector]
      simp only [foldlExcept] at hfold
      rw [hskip] at hfold
      simp only [Except.bind] at hfold
      cases hstep : processConnector ops true (some ()) r.geometry r.streetID
          edges cn with
      | error er => rw [hstep] at hfold; cases hfold
      | ok es2 =>
        rw [hstep] at hfold
        simp only [Except.bind] at hfold
        cases hfold
        obtain ⟨_, hnotc, hnotref, href⟩ := processConnector_spec huniq hrc hstep
        by_cases hxr : x.streetID = r.streetID
        · have hd := (href x hx hxr r hrmem rfl).2.2.2.2.2.2
          rw [hd]
          simpa using hsum
        · have hxin : x ∈ edges := hnotref x hx hxr
          rcases honly2 x hxin hcode with hxa | hxb
          · exact absurd (by rw [hxa]) hxr
          · exact absurd (by rw [hxb] : x.streetID = cn.streetID)
              (fun hh => hnotc x hx hh)
    by_cases hle : a.length ≤ b.length
    · have hsort : sortByLength [a, b] = [a, b] := by
        simp [sortByLength, List.insertionSort, List.orderedInsert, hle]
      simp only [processGroup, heq, hsort] at hok
      exact main a b hamem hab.symm rfl honly hok
    · have hsort : sortByLength [a, b] = [b, a] := by
        simp [sortByLength, List.insertionSort, List.orderedInsert, hle]
      simp only [processGroup, heq, hsort] at hok
      exact main b a hbmem hab (add_comm b.density a.density)
        (fun x hx hc => Or.symm (honly x hx hc)) hok

/-- C3 witness: contraction of densities 3 and 7 keeps 7 (their max);
a centerline merge of parallel densities 3 and 7 keeps 10 (their sum). -/
theorem C3_witness :
    (∀ e ∈ [(⟨0, 0, 1, [((0 : ℚ), (0 : ℚ)), ((1 : ℚ), (0 : ℚ)), ((1 : ℚ), (0 : ℚ)), ((2 : ℚ), (0 : ℚ))], 0, none, 7, 1, none, none⟩ : EdgeRow)],
      e.streetID = (0 : Int) → e.density = max (3 : ℚ) 7) ∧
    (∀ x ∈ [(⟨0, 0, 1, [((0 : ℚ), (0 : ℚ)), ((10 : ℚ), (0 : ℚ))], 0, none, 10, 10, some ((0 : Int), (1 : Int)), none⟩ : EdgeRow)],
      x.code = some ((0 : Int), (1 : Int)) → x.density = (3 : ℚ) + 7) := by
  constructor
  · exact C3_density_combination.1 (c3Nodes, c3Edges) 2
      ⟨0, 0, 2, [((0 : ℚ), (0 : ℚ)), ((1 : ℚ), (0 : ℚ))], 0, none, 3, 1, none, none⟩
      ⟨1, 2, 1, [((1 : ℚ), (0 : ℚ)), ((2 : ℚ), (0 : ℚ))], 0, none, 7, 1, none, none⟩
      [⟨0, ((0 : ℚ), (0 : ℚ)), 0, 0⟩, ⟨1, ((2 : ℚ), (0 : ℚ)), 0, 0⟩]
      [⟨0, 0, 1, [((0 : ℚ), (0 : ℚ)), ((1 : ℚ), (0 : ℚ)), ((1 : ℚ), (0 : ℚ)), ((2 : ℚ), (0 : ℚ))], 0, none, 7, 1, none, none⟩]
      (by decide) (by decide)
  · exact C3_density_combination.2 ops0 c3GroupEdges
      [⟨0, 0, 1, [((0 : ℚ), (0 : ℚ)), ((10 : ℚ), (0 : ℚ))], 0, none, 10, 10, some ((0 : Int), (1 : Int)), none⟩]
      (0, 1)
      ⟨0, 0, 1, [((0 : ℚ), (0 : ℚ)), ((10 : ℚ), (0 : ℚ))], 0, none, 3, 10, some ((0 : Int), (1 : Int)), none⟩
      ⟨1, 0, 1, [((0 : ℚ), (0 : ℚ)), ((5 : ℚ), (1 : ℚ)), ((10 : ℚ), (0 : ℚ))], 0, none, 7, 12, some ((0 : Int), (1 : Int)), none⟩
      (by decide) (by decide) (by decide)

/-- C7: the claim says the edge table returned by `clean_network` never
contains a `u = v` edge and that the discarding contraction path raises
no error.  The self-loop discipline itself is real — self-loops are
dropped at entry (line 277) and every successful pass of the cleaning
loop preserves `u ≠ v` (a contraction whose new endpoints coincide drops
both edges and the node, lines 225-228) — but the claim's guarantee about
the returned table is unrealisable: for a nonempty edge table
`clean_network` cannot return at all, because the reconciliation of line
356 raises `TypeError` (line 411) once the loop converges, as the
concrete run shows. -/
theorem C7_loop_no_self_loops_but_crash :
    (∀ (ops : GeomOps) (dE sU ud : Bool) (dc : Option Unit) (fuel : Nat)
      (st st' : List NodeRow × List EdgeRow),
      (∀ e ∈ st.2, e.u ≠ e.v) →
      cleanLoop ops dE sU ud dc fuel st = .ok st' →
      ∀ e ∈ st'.2, e.u ≠ e.v) ∧
    clean_network ops0 false false true true false none 7 c7Nodes c7Edges =
      .error .typeError := by
  constructor
  · intro ops dE sU ud dc fuel st st' h hok
    have h2 : edgeInv (fun _ => True) st.2 := fun e he => ⟨h e he, trivial⟩
    exact fun e he => (cleanLoop_inv fuel st st' h2 hok e he).1
  · decide

/-- C10: with a `highway` column present, the pre-loop handling of
lines 283-288 equals "drop every `primary_link`/`elevator` row, then set
the pedestrian flag to 1 exactly on
`footway`/`pedestrian`/`living_street`/`path` rows and 0 otherwise" —
but `clean_network` itself never exhibits this in a returned table: with
a nonempty edge table the post-loop reconciliation of line 356 raises
`TypeError` (line 411), as the concrete run with a `primary_link` and a
`residential` edge shows. -/
theorem C10_highway_step_filter :
    (∀ l : List EdgeRow, highwayStep l =
      (l.filter (fun e => ¬(e.highway = some HighwayTag.primary_link ∨
        e.highway = some HighwayTag.elevator))).map
        (fun e => { e with pedestrian :=
          if e.highway = some HighwayTag.footway ∨
             e.highway = some HighwayTag.pedestrian_area ∨
             e.highway = some HighwayTag.living_street ∨
             e.highway = some HighwayTag.path then 1 else 0 })) ∧
    clean_network ops0 true false true false false none 7 c10Nodes c10Edges =
      .error .typeError := by
  constructor
  · intro l
    induction l with
    | nil => rfl
    | cons a l ih =>
      by_cases hrem : a.highway = some HighwayTag.primary_link ∨
          a.highway = some HighwayTag.elevator
      · rcases hrem with h | h <;>
          (simp only [highwayStep] at ih ⊢;
           simp [List.filter_cons, h] at ih ⊢; try exact ih)
      · by_cases hped : a.highway = some HighwayTag.footway ∨
            a.highway = some HighwayTag.pedestrian_area ∨
            a.highway = some HighwayTag.living_street ∨
            a.highway = some HighwayTag.path
        · push_neg at hrem
          rcases hped with h | h | h | h <;>
            (simp only [highwayStep] at ih ⊢;
             simp [List.filter_cons, hrem.1, hrem.2, h] at ih ⊢; try exact ih)
        · push_neg at hrem hped
          simp only [highwayStep] at ih ⊢
          simp [List.filter_cons, hrem.1, hrem.2, hped.1, hped.2.1,
            hped.2.2.1, hped.2.2.2] at ih ⊢
          try exact ih
  · decide
